import Mathlib

/-
  Verification development for the big-waffle DDF query service.

  The JavaScript source is shallowly embedded: pure string-building
  functions (SQL compilation, response framing, version assignment,
  schema inference) become Lean functions over explicit data types;
  the stateful catalog operations become functions from a table state
  (a list of rows) to a new state, with `Except` modelling thrown errors.

  JavaScript strings are modelled by Lean `String`; the default
  `Array.prototype.sort()` on string arrays (lexicographic by code
  unit) is modelled by an insertion sort over a code-point comparison
  on the character lists of the strings.
-/

namespace BW

/-! ### String ordering (models the JS default array sort on strings) -/

def listCharCmp : List Char → List Char → Ordering
  | [], [] => .eq
  | [], _ :: _ => .lt
  | _ :: _, [] => .gt
  | a :: as, b :: bs =>
    if a.toNat < b.toNat then .lt
    else if b.toNat < a.toNat then .gt
    else listCharCmp as bs

def jsStrLe (a b : String) : Bool :=
  listCharCmp a.data b.data != Ordering.gt

/-- The Prop form of `jsStrLe`; used as the sort relation. -/
def JsLe (a b : String) : Prop := jsStrLe a b = true

instance : DecidableRel JsLe := fun a b => instDecidableEqBool (jsStrLe a b) true

/-- `array.sort()` on a JS array of strings. -/
def jsSort (l : List String) : List String := List.insertionSort JsLe l

/-! ### Substring occurrence (used to state properties of emitted SQL) -/

def leadsWith : List Char → List Char → Bool
  | [], _ => true
  | _ :: _, [] => false
  | p :: ps, c :: cs => p == c && leadsWith ps cs

def hasSeg (p : List Char) : List Char → Bool
  | [] => leadsWith p []
  | c :: cs => leadsWith p (c :: cs) || hasSeg p cs

/-- `needle` occurs as a contiguous substring of `hay`. -/
def strHas (needle hay : String) : Bool := hasSeg needle.data hay.data

/-! ### Character-list implementations of JS string primitives

(The built-in `String.startsWith`, `toUpper`, `toLower`, `drop` and
`splitOn` iterate over byte positions; these equivalents recurse over
the character list.) -/

def jsStartsWith (s pre : String) : Bool := leadsWith pre.data s.data

def charToUpper (c : Char) : Char :=
  if 97 ≤ c.toNat ∧ c.toNat ≤ 122 then Char.ofNat (c.toNat - 32) else c

def charToLower (c : Char) : Char :=
  if 65 ≤ c.toNat ∧ c.toNat ≤ 90 then Char.ofNat (c.toNat + 32) else c

def jsToUpper (s : String) : String := ⟨s.data.map charToUpper⟩

def jsToLower (s : String) : String := ⟨s.data.map charToLower⟩

def jsDrop (s : String) (n : Nat) : String := ⟨s.data.drop n⟩

/-- `column.split('.')`. -/
def splitOnDot (s : String) : List String :=
  let rec go : List Char → List Char → List String
    | [], cur => [⟨cur.reverse⟩]
    | c :: cs, cur =>
      if c.toNat = 46 then ⟨cur.reverse⟩ :: go cs []
      else go cs (c :: cur)
  go s.data []

/-! ### JS values

A cell of a database result row, and the scalar values appearing in
queries.  JS numbers are modelled as rationals (claims only involve
integral values). -/

inductive JSValue where
  | nullv
  | num (q : ℚ)
  | str (s : String)
  | boolean (b : Bool)
deriving DecidableEq

/-- JS truthiness, as used by `if (record[idx])` in `RecordPrinter._transform`
(part_016 line 116): `null`, `0`, the empty string and `false` are falsy. -/
def jsTruthy : JSValue → Bool
  | .nullv => false
  | .num q => q ≠ 0
  | .str s => s ≠ ""
  | .boolean b => b

/-- `JSON.stringify` of one cell.  Strings in the claims contain no
characters needing JSON escapes, so escaping is elided. -/
def jsonOfValue : JSValue → String
  | .nullv => "null"
  | .num q => if q.den = 1 then toString q.num else toString q
  | .str s => "\"" ++ s ++ "\""
  | .boolean true => "true"
  | .boolean false => "false"

/-- `JSON.stringify` of a result row (an array). -/
def jsonOfRecord (r : List JSValue) : String :=
  "[" ++ String.intercalate "," (r.map jsonOfValue) ++ "]"

/-- `JSON.stringify` of an array of strings (the response header). -/
def jsonOfStrings (l : List String) : String :=
  "[" ++ String.intercalate "," (l.map (fun s => "\"" ++ s ++ "\"")) ++ "]"

/-! ### `sqlSafe` (collections.js lines 30-46)

`sqlSafe` replaces each character matched by
`/[\0\x08\x09\x1a\n\r'\\%]/g` via `replacements[matches.indexOf(char)]`.
The `matches` array holds the two-character source texts (backslash
followed by `0`, `x08`, ...), so `indexOf` on the matched one-character
string finds only `'` (index 6), `\` (index 8) and `%` (index 10); for
the control characters `indexOf` gives `-1` and the callback returns
`undefined`, which `String.replace` coerces to the text `undefined`. -/

def sqlSafeChar (c : Char) : List Char :=
  if c.toNat = 39 then [c, c]
  else if c.toNat = 92 then ['\\', '\\']
  else if c.toNat = 37 then ['\\', '%']
  else if c.toNat = 0 ∨ c.toNat = 8 ∨ c.toNat = 9 ∨ c.toNat = 26 ∨
          c.toNat = 10 ∨ c.toNat = 13 then "undefined".data
  else [c]

def sqlSafeList : List Char → List Char
  | [] => []
  | c :: cs => sqlSafeChar c ++ sqlSafeList cs

/-- `sqlSafe(value)` for a string value (no quoting requested). -/
def sqlSafe (s : String) : String := ⟨sqlSafeList s.data⟩

/-- `sqlSafe(value, true)`: additionally single-quote the result unless
it is the text `TRUE` or `FALSE`. -/
def sqlSafeQuoted (s : String) : String :=
  let safe := sqlSafe s
  if safe = "TRUE" ∨ safe = "FALSE" then safe
  else "\x27" ++ safe ++ "\x27"

/-! ### Identifier quoting and comparison operands (collections.js 14-86) -/

/-- `quoted(identifier, qualifier)`: backtick-quote an identifier,
optionally prefixed by a backtick-quoted qualifier and a dot. -/
def quoted (id : String) (qualifier : Option String := none) : String :=
  (match qualifier with
   | some q => "`" ++ q ++ "`."
   | none => "") ++ "`" ++ id ++ "`"

/-- A scalar operand of a comparison in a query. -/
inductive Operand where
  | str (s : String)
  | num (n : Int)
  | boolean (b : Bool)
  | nullv
deriving DecidableEq

/-- `_convertOperand` (collections.js 48-59): strings are wrapped in
single quotes verbatim, `null`/`undefined` become `NULL`, booleans
become `TRUE`/`FALSE`, and numbers are printed in decimal. -/
def convertOperand : Operand → String
  | .str s => "\x27" ++ s ++ "\x27"
  | .nullv => "NULL"
  | .boolean true => "TRUE"
  | .boolean false => "FALSE"
  | .num n => toString n

/-- The right-hand side of a comparison: a scalar or a JS array. -/
inductive CmpRhs where
  | scalar (o : Operand)
  | list (l : List Operand)
deriving DecidableEq

/-- JS string interpolation of an array element (`[1,null].toString()`
renders `null` as the empty string and strings without quotes). -/
def jsArrayElemStr : Operand → String
  | .str s => s
  | .num n => toString n
  | .boolean true => "true"
  | .boolean false => "false"
  | .nullv => ""

/-- `${_convertOperand(operand)}` where the operand may be an array
(`_convertOperand` returns a non-scalar unchanged and the template
literal stringifies it with commas). -/
def convertRhs : CmpRhs → String
  | .scalar o => convertOperand o
  | .list l => String.intercalate "," (l.map jsArrayElemStr)

/-- The comparison operators understood by `Conditions`. -/
inductive CmpOp where
  | eq | ne | gt | gte | lt | lte | isIn | notIn
deriving DecidableEq

/-- Errors raised during query compilation; `jsCrash` stands for a
JavaScript `TypeError` (property access on `undefined`/`null`). -/
inductive QErr where
  | notSupported
  | wrongJoin
  | wrongWhere
  | wrongOrderBy
  | wrongLanguage
  | secondJoin (tableName : String)
  | jsCrash
deriving DecidableEq

/-- `Conditions` (collections.js 61-86): render one comparison. `$eq`
uses the NULL-safe `<=>`; boolean literals for `$eq`/`$ne` become
`IS [NOT] TRUE/FALSE`; `$in`/`$nin` require a JS array. -/
def condSQL (col : String) : CmpOp → CmpRhs → Except QErr String
  | .eq, .scalar (.boolean true) => .ok (col ++ " IS TRUE")
  | .eq, .scalar (.boolean false) => .ok (col ++ " IS FALSE")
  | .eq, rhs => .ok (col ++ " <=> " ++ convertRhs rhs)
  | .ne, .scalar (.boolean true) => .ok (col ++ " IS NOT TRUE")
  | .ne, .scalar (.boolean false) => .ok (col ++ " IS NOT FALSE")
  | .ne, rhs => .ok ("! (" ++ col ++ " <=> " ++ convertRhs rhs ++ ")")
  | .gt, rhs => .ok (col ++ " > " ++ convertRhs rhs)
  | .gte, rhs => .ok (col ++ " >= " ++ convertRhs rhs)
  | .lt, rhs => .ok (col ++ " < " ++ convertRhs rhs)
  | .lte, rhs => .ok (col ++ " <= " ++ convertRhs rhs)
  | .isIn, .list l =>
    .ok (col ++ " IN (" ++ String.intercalate ", " (l.map convertOperand) ++ ")")
  | .isIn, .scalar _ => .error .jsCrash
  | .notIn, .list l =>
    .ok (col ++ " NOT IN (" ++ String.intercalate ", " (l.map convertOperand) ++ ")")
  | .notIn, .scalar _ => .error .jsCrash

/-! ### Table schema definitions (collections.js `Table`) -/

/-- One column definition in a table schema (`_schema[columnName]`). -/
structure ColDef where
  sqlType : Option String := none
  size : Option Nat := none
  virtual : Bool := false
  valueCol : Option String := none
  fallback : Option String := none
  index : Option String := none
  cardinality : Option Nat := none
  uniques : Option (List JSValue) := none
  auxillary : Bool := false
deriving DecidableEq

/-- A physical relational table (collections.js `Table`).  `tblName`
models `_tableName` (set when the logical name exceeds 64 characters or
via the setter); `values` is only populated for shards of a wide table
(by the `tables` setter of `WideTable`). -/
structure STable where
  name : String
  tblName : Option String := none
  columnNames : List (String × String) := []
  keys : List String := []
  schemaCols : List (String × ColDef) := []
  values : List String := []
deriving DecidableEq

def STable.tableName (t : STable) : String := t.tblName.getD t.name

/-- `_column(schemaName, language)` (collections.js 259-267). -/
def STable.column (t : STable) (n : String) (lang : Option String := none) : String :=
  match lang with
  | some l =>
    let translated := (t.columnNames.lookup (n ++ "--" ++ l)).getD (n ++ "--" ++ l)
    if (t.schemaCols.lookup translated).isSome then translated
    else (t.columnNames.lookup n).getD n
  | none => (t.columnNames.lookup n).getD n

/-- `_qualified` for a single column name (collections.js 273-277). -/
def STable.qualifiedCol (t : STable) (n : String) (lang : Option String := none) : String :=
  quoted (t.column n lang) (some t.tableName)

/-- A logical table split into shards sharing the key (`WideTable`). -/
structure WTable where
  name : String
  keys : List String := []
  tables : List STable := []
deriving DecidableEq

/-- A table as stored in a schema definition: either a plain table or a
wide-table group (`Table.specifiedBy`). -/
inductive PhysTable where
  | single (t : STable)
  | wide (w : WTable)
deriving DecidableEq

def PhysTable.pname : PhysTable → String
  | .single t => t.name
  | .wide w => w.name

/-- `tableName` accessed on a `PhysTable`: `WideTable` inherits from
`Collection`, which has no `tableName`, so the access yields
`undefined`, which a template literal renders as `undefined`. -/
def PhysTable.ptableName : PhysTable → String
  | .single t => t.tableName
  | .wide _ => "undefined"

/-- `WideTable._qualifiedCol` (collections.js 873-882): key columns are
qualified against the first shard, other columns against the first
shard whose `values` contain them.  A value column held by no shard
makes the JS code index past the end of the table list and crash. -/
def WTable.qualifiedCol (w : WTable) (colName : String) (lang : Option String := none) :
    Except QErr String :=
  if w.keys.contains colName then
    match w.tables with
    | t :: _ => .ok (quoted (t.column colName lang) (some t.tableName))
    | [] => .error .jsCrash
  else
    match w.tables.find? (fun t => t.values.contains colName) with
    | some t => .ok (quoted (t.column colName lang) (some t.tableName))
    | none => .error .jsCrash

/-- Qualify a single column against a `PhysTable`.  Mirrors the
dynamic dispatch of `_qualified` on a single string; note that
`WideTable._qualified` drops the language for single-string input
(collections.js 884-888). -/
def PhysTable.qualifiedCol (p : PhysTable) (n : String) (lang : Option String := none) :
    Except QErr String :=
  match p with
  | .single t => .ok (t.qualifiedCol n lang)
  | .wide w => w.qualifiedCol n none

/-! ### Filter trees and their SQL (collections.js `_sqlForFilter`) -/

/-- A canonical filter as accumulated by `DDFSchema._addFilter`:
either a `$and`/`$or` object (whose single key is kept, since the SQL
connector is derived from it by `slice(1).toUpperCase()`), or a single
column mapped to an object of comparison operators. -/
inductive Filter where
  | logical (opName : String) (subs : List Filter)
  | cond (column : String) (ops : List (CmpOp × CmpRhs))

/-- An entry of the `joins` list passed to `sqlFor`. -/
structure JoinItem where
  inner : PhysTable
  onKey : String
deriving DecidableEq

/-- The argument object of `Table.sqlFor` / `WideTable.sqlFor`. -/
structure SqlQuery where
  language : Option String := none
  projection : List String := []
  joins : List JoinItem := []
  filters : List Filter := []
  sort : List (String × String) := []

mutual

/-- `_sqlForFilter` (collections.js 135-163), parameterised by the
qualification function of the receiving collection.  Column references
of the form `table.column` are resolved against the joined foreign
tables; an unknown foreign table is a JS crash. -/
def sqlForFilter (selfQual : String → Option String → Except QErr String)
    (foreignTables : List (String × PhysTable)) (lang : Option String) :
    Filter → Except QErr String
  | .logical opName subs => do
    let subSqls ← sqlForFilterList selfQual foreignTables lang subs
    .ok ("(" ++ String.intercalate (" " ++ jsToUpper (jsDrop opName 1)) subSqls ++ ")")
  | .cond column ops => do
    let qcol ← (match splitOnDot column with
      | [c] => selfQual c lang
      | tbl :: c :: _ =>
        (match foreignTables.lookup tbl with
         | some ft => ft.qualifiedCol c lang
         | none => .error .jsCrash)
      | [] => selfQual column lang)
    let clauses ← condSQLList qcol ops
    .ok (String.intercalate " AND" clauses)

def sqlForFilterList (selfQual : String → Option String → Except QErr String)
    (foreignTables : List (String × PhysTable)) (lang : Option String) :
    List Filter → Except QErr (List String)
  | [] => .ok []
  | f :: fs => do
    let s ← sqlForFilter selfQual foreignTables lang f
    let rest ← sqlForFilterList selfQual foreignTables lang fs
    .ok (s :: rest)

def condSQLList (qcol : String) : List (CmpOp × CmpRhs) → Except QErr (List String)
  | [] => .ok []
  | (op, rhs) :: rest => do
    let s ← condSQL qcol op rhs
    let tail ← condSQLList qcol rest
    .ok (s :: tail)

end

/-- The `INNER JOIN` fragment shared by `Table.sqlFor` (collections.js
488-493) and `WideTable.sqlFor` (908-913).  The accumulator starts with
a single space and the language is not passed to either side of the
`ON` condition. -/
def innerJoinSQL (selfQual : String → Option String → Except QErr String)
    (joins : List JoinItem) : Except QErr String :=
  if joins.isEmpty then .ok ""
  else joins.foldlM (fun sql j => do
    let lhs ← selfQual j.onKey none
    let rhs ← j.inner.qualifiedCol j.onKey none
    .ok (sql ++ "\nINNER JOIN `" ++ j.inner.ptableName ++ "` ON " ++ lhs ++ "=" ++ rhs)) " "

/-- Foreign-table map built from the joins (keyed by `inner.name`). -/
def foreignTablesOf (joins : List JoinItem) : List (String × PhysTable) :=
  joins.map (fun j => (j.inner.pname, j.inner))

/-- The `WHERE` fragment (collections.js 498-500): note the separator
`" AND"` has no trailing space. -/
def whereSQL (selfQual : String → Option String → Except QErr String)
    (foreignTables : List (String × PhysTable)) (lang : Option String)
    (filters : List Filter) : Except QErr String :=
  if filters.isEmpty then .ok ""
  else do
    let parts ← sqlForFilterList selfQual foreignTables lang filters
    .ok ("\nWHERE " ++ String.intercalate " AND" parts)

/-- The `ORDER BY` fragment (collections.js 501-506): the separator is
`"AND "`. -/
def orderSQL (selfQual : String → Option String → Except QErr String)
    (lang : Option String) (sort : List (String × String)) : Except QErr String :=
  if sort.isEmpty then .ok ""
  else do
    let parts ← sort.mapM (fun s => do
      let q ← selfQual s.1 lang
      .ok (q ++ " " ++ s.2))
    .ok ("\nORDER BY " ++ String.intercalate "AND " parts)

/-- `Table.sqlFor` (collections.js 485-508). -/
def STable.sqlFor (t : STable) (q : SqlQuery) : Except QErr String := do
  let selfQual : String → Option String → Except QErr String :=
    fun n lang => .ok (t.qualifiedCol n lang)
  let columns := String.intercalate ", " (q.projection.map (fun c => t.qualifiedCol c q.language))
  let innerJoin ← innerJoinSQL selfQual q.joins
  let wherePart ← whereSQL selfQual (foreignTablesOf q.joins) q.language q.filters
  let orderPart ← orderSQL selfQual q.language q.sort
  .ok ("SELECT " ++ columns ++ " FROM `" ++ t.tableName ++ "`" ++
    innerJoin ++ wherePart ++ orderPart ++ ";")

/-- `WideTable.sqlFor` (collections.js 899-934).  If the projection
holds exactly one non-key column, compilation is delegated to the shard
holding that column; otherwise all shards are joined pairwise against
the first shard with equality on every key column (separator
`" AND "`). -/
def WTable.sqlFor (w : WTable) (q : SqlQuery) : Except QErr String := do
  let values := q.projection.filter (fun c => !(w.keys.contains c))
  match values with
  | [v] =>
    (match w.tables.find? (fun t => t.values.contains v) with
     | some t => t.sqlFor q
     | none => .error .jsCrash)
  | _ =>
    let selfQual : String → Option String → Except QErr String :=
      fun n lang => w.qualifiedCol n lang
    let columns ← q.projection.mapM (fun c => w.qualifiedCol c q.language)
    let innerJoin ← innerJoinSQL selfQual q.joins
    let wherePart ← whereSQL selfQual (foreignTablesOf q.joins) q.language q.filters
    let orderPart ← orderSQL selfQual q.language q.sort
    match w.tables with
    | [] => .error .jsCrash
    | t0 :: rest =>
      let jointTable := rest.foldl (fun jSQL t =>
        let onSQL := String.intercalate " AND " (w.keys.map (fun k =>
          t0.qualifiedCol k ++ "=" ++ t.qualifiedCol k))
        jSQL ++ "\n  JOIN `" ++ t.tableName ++ "` ON " ++ onSQL)
        ("`" ++ t0.tableName ++ "`")
      .ok ("SELECT " ++ String.intercalate ", " columns ++ " FROM " ++ jointTable ++
        innerJoin ++ wherePart ++ orderPart ++ ";")

/-- `sqlFor` dispatched on the table kind. -/
def PhysTable.sqlFor (p : PhysTable) (q : SqlQuery) : Except QErr String :=
  match p with
  | .single t => t.sqlFor q
  | .wide w => w.sqlFor q

/-! ### Wide-table splitting (collections.js `WideTable.split`) -/

def MaxColumns : Nat := 1000

def MaxRowSize : Nat := 8000

/-- The per-character width factor test: `/^_.+--[a-z]{2}-[a-z]{2}$/i`
(a translated auxiliary column). -/
def looksTranslated (colName : String) : Bool :=
  let l := colName.data
  match l with
  | c :: _ =>
    (c.toNat = 95) && l.length ≥ 9 &&
    (match l.reverse with
     | a :: b :: d1 :: c1 :: c2 :: d2 :: d3 :: _ =>
       let alpha := fun ch : Char =>
         (97 ≤ ch.toNat ∧ ch.toNat ≤ 122) ∨ (65 ≤ ch.toNat ∧ ch.toNat ≤ 90)
       decide (alpha a) && decide (alpha b) && (d1.toNat = 45) &&
       decide (alpha c1) && decide (alpha c2) && (d2.toNat = 45) && (d3.toNat = 45)
     | _ => false)
  | [] => false

/-- `estimatedColumnSize` (collections.js 323-345); `Math.round` on
`size * 1.1 + 2` (or `* 2.2 + 2`) is computed exactly over naturals. -/
def estColSize (colName : String) (cd : ColDef) : Nat :=
  match cd.sqlType with
  | some "VARCHAR" =>
    let sz := cd.size.getD 0
    if looksTranslated colName then (22 * sz + 25) / 10
    else (11 * sz + 25) / 10
  | some "TINYINT" => 4
  | some "INTEGER" => 4
  | some "BIGINT" => 4
  | some "FLOAT" => 4
  | some "DOUBLE" => 8
  | some "BOOLEAN" => 4
  | some "JSON" => 10
  | some "TEXT" => 10
  | some "BLOB" => 10
  | _ => 0

/-- `addColumn` (collections.js 679-694) as used by `split`: a column
definition carrying a `sqlType` is taken wholesale, otherwise the
default `BOOLEAN` type is used. -/
def addColumnDef (cd : ColDef) : ColDef :=
  if cd.sqlType.isSome then cd else { sqlType := some "BOOLEAN" }

def wideSuffix (i : Nat) : String :=
  (["A", "B", "C", "D", "E", "F", "G", "H", "I", "J"].get? i).getD "undefined"

/-- State while accumulating shards during a split. -/
structure SplitState where
  shards : List STable := []
  current : STable
  nrColumns : Nat := 0
  rowSize : Nat := 0

/-- A fresh shard holding only the key columns.  The closure
`mappedColumns` mutated by `newTable` in the source is a copy made
after `Table`'s constructor has already cloned it, so the shard's own
column mapping stays empty. -/
def newShard (specName : String) (idx : Nat) (keys : List String)
    (keyDefs : List (String × ColDef)) : STable × Nat × Nat :=
  let t0 : STable := { name := specName ++ "_" ++ wideSuffix idx, keys := keys }
  let (t, n, r) := keyDefs.foldl (fun (acc : STable × Nat × Nat) kd =>
    let (t, n, r) := acc
    let cd := addColumnDef kd.2
    ({ t with schemaCols := t.schemaCols ++ [(kd.1, cd)] }, n + 1, r + estColSize kd.1 cd))
    (t0, 0, 0)
  (t, n, r)

/-- `WideTable.split` (collections.js 992-1041): key columns are
replicated into every shard; value columns are distributed in schema
order, opening a new shard when the current one would reach
`MaxColumns - 1` columns or `MaxRowSize` estimated bytes.  The final
`WideTable` constructor runs the `tables` setter, which assigns each
shard its `values` (its schema columns minus the keys). -/
def WTable.split (aTable : STable) : WTable :=
  let keyDefs := aTable.keys.map (fun k => (k, (aTable.schemaCols.lookup k).getD {}))
  let step := fun (st : SplitState) (col : String × ColDef) =>
    if aTable.keys.contains col.1 then st
    else
      let st :=
        if st.nrColumns ≥ MaxColumns - 1 ∨
           st.rowSize + estColSize col.1 col.2 ≥ MaxRowSize then
          let (t, n, r) := newShard aTable.name (st.shards.length + 1) aTable.keys keyDefs
          { shards := st.shards ++ [st.current], current := t, nrColumns := n, rowSize := r }
        else st
      let cd := addColumnDef col.2
      { st with
        current := { st.current with schemaCols := st.current.schemaCols ++ [(col.1, cd)] },
        nrColumns := st.nrColumns + 1,
        rowSize := st.rowSize + estColSize col.1 cd }
  let (t0, n0, r0) := newShard aTable.name 0 aTable.keys keyDefs
  let final := aTable.schemaCols.foldl step { shards := [], current := t0, nrColumns := n0, rowSize := r0 }
  let shards := final.shards ++ [final.current]
  let shards := shards.map (fun t =>
    { t with values := (t.schemaCols.map Prod.fst).filter (fun c => !(aTable.keys.contains c)) })
  { name := aTable.name, keys := aTable.keys, tables := shards }

/-! ### The user-facing `where` / `join` objects (ddf/datasets.js) -/

mutual

/-- A `where` object: its (key, value) entries in insertion order. -/
inductive WObj where
  | nil
  | cons (key : String) (v : WVal) (rest : WObj)

/-- The value of one `where` entry: a condition object of operators, a
scalar (implicit `$eq`, or a `$var` reference, or the invalid `null`),
or — under `$and`/`$or` — an array of sub-objects. -/
inductive WVal where
  | condObj (ops : List (CmpOp × CmpRhs))
  | condScalar (o : Operand)
  | subs (l : WObjList)

/-- An array of `where` objects (the payload of `$and`/`$or`). -/
inductive WObjList where
  | onil
  | ocons (o : WObj) (rest : WObjList)

end

/-- Build a `where` object from an entry list. -/
def WObj.ofList (l : List (String × WVal)) : WObj :=
  l.foldr (fun e acc => .cons e.1 e.2 acc) .nil

/-- Build a `where`-object array from a list. -/
def WObjList.ofList (l : List WObj) : WObjList :=
  l.foldr .ocons .onil

/-- The empty `where` object. -/
def WObj.empty : WObj := .nil

/-- A `join` binding `$v: {key: ..., where: ...}`.  The source accepts
`key` as a string or an array and normalises to an array.  -/
structure JoinSpecObj where
  key : List String
  whereClause : Option WObj := none

/-- A table definition inside the schema model: its declared value
columns and (once loaded) the physical table. -/
structure TableDef where
  values : List String := []
  table : Option PhysTable := none

/-- The in-memory schema model (`DDFSchema`), with the `concepts` /
`entities` / `datapoints` maps keyed by the `$`-joined sorted key
tuple, and the materialised `domains` map (entity set → domain). -/
structure DDFSchemaM where
  concepts : List (String × TableDef) := []
  entities : List (String × TableDef) := []
  datapoints : List (String × TableDef) := []
  domains : List (String × String) := []

/-- `this[ddfQuery.from]` resolved to one of the three kind maps. -/
def DDFSchemaM.kindDefs (s : DDFSchemaM) : String → Option (List (String × TableDef))
  | "concepts" => some s.concepts
  | "entities" => some s.entities
  | "datapoints" => some s.datapoints
  | _ => none

/-- `isInTimeDomain` (ddf/datasets.js 28-36). -/
def isInTimeDomain (key : List String) : Bool :=
  key.length = 1 &&
    ["time", "year", "quarter", "month", "week", "day"].contains (key.headD "")

/-- `definitionFor` (ddf/datasets.js 369-372): map the key through the
domain map, sort it, join with `$`, and look it up in the kind map. -/
def DDFSchemaM.definitionFor (s : DDFSchemaM) (kind : String) (key : List String) :
    Option TableDef :=
  (s.kindDefs kind).bind (fun defs =>
    defs.lookup (String.intercalate "$" (jsSort (key.map (fun k => (s.domains.lookup k).getD k)))))

/-- `tableFor` (ddf/datasets.js 374-385). -/
def DDFSchemaM.tableFor (s : DDFSchemaM) (kind : String) (key : List String) :
    Option PhysTable :=
  (s.definitionFor kind key).bind (fun d => d.table)

mutual

/-- `_addFilter` (ddf/datasets.js 244-287): canonicalise one `where`
object into the `filters` accumulator.  `$and`/`$or` recurse; `null`
conditions are rejected; multi-operator objects become an explicit
`$and`; scalars become an explicit `$eq`; strings starting with `$`
(join variables) are skipped.  `tableName`, when given, prefixes the
domain-mapped column name. -/
def addFilterObj (s : DDFSchemaM) (tableName : Option String)
    (filters : List Filter) : WObj → Except QErr (List Filter)
  | .nil => .ok filters
  | .cons col v rest => do
    let filters ←
      if col = "$and" ∨ col = "$or" then
        match v with
        | .subs l => do
          let subFilters ← addFilterObjList s tableName [] l
          if subFilters.isEmpty then pure filters
          else pure (filters ++ [Filter.logical col subFilters])
        | _ => .error .jsCrash
      else
        let tableColumn := (s.domains.lookup col).getD col
        let columnName := match tableName with
          | some t => t ++ "." ++ tableColumn
          | none => tableColumn
        match v with
        | .condScalar .nullv => .error .wrongWhere
        | .condObj ops =>
          if ops.length > 1 then
            pure (filters ++ [Filter.logical "$and"
              (ops.map (fun op => Filter.cond columnName [op]))])
          else
            pure (filters ++ [Filter.cond columnName ops])
        | .condScalar (.str str) =>
          if jsStartsWith str "$" then pure filters
          else pure (filters ++ [Filter.cond columnName [(CmpOp.eq, .scalar (.str str))]])
        | .condScalar o =>
          pure (filters ++ [Filter.cond columnName [(CmpOp.eq, .scalar o)]])
        | .subs _ => .error .jsCrash
    addFilterObj s tableName filters rest

def addFilterObjList (s : DDFSchemaM) (tableName : Option String)
    (acc : List Filter) : WObjList → Except QErr (List Filter)
  | .onil => .ok acc
  | .ocons o os => do
    let acc ← addFilterObj s tableName acc o
    addFilterObjList s tableName acc os

end

def DDFSchemaM.addFilter (s : DDFSchemaM) (filters : List Filter) (w : WObj)
    (tableName : Option String := none) : Except QErr (List Filter) :=
  addFilterObj s tableName filters w

/-- `_addJoin` (ddf/datasets.js 289-304): skip a duplicate join on the
same foreign table, error if it is joined on a different key. -/
def addJoin (joins : List JoinItem) (ft : PhysTable) (onKey : String) :
    Except QErr (List JoinItem) :=
  match joins.find? (fun j => j.inner.pname == ft.pname) with
  | some j =>
    if j.onKey ≠ onKey then .error (.secondJoin ft.pname) else .ok joins
  | none => .ok (joins ++ [⟨ft, onKey⟩])

/-- The test `/^\$[_a-z0-9]+/.test(joinOn)`. -/
def joinVarOk (joinOn : String) : Bool :=
  match joinOn.data with
  | c :: d :: _ =>
    c.toNat = 36 &&
      (d.toNat = 95 || (97 ≤ d.toNat && d.toNat ≤ 122) || (48 ≤ d.toNat && d.toNat ≤ 57))
  | _ => false

/-- The normalised query object as consumed by `DDFSchema.sqlFor`
(after the `Query` constructor has validated and sorted it). -/
structure NormQuery where
  key : List String := []
  value : List String := []
  fromClause : String := ""
  whereClause : Option WObj := none
  join : List (String × JoinSpecObj) := []
  order_by : List (String × String) := []
  language : Option String := none

/-- `DDFSchema.sqlFor` (ddf/datasets.js 306-367): entity-set keys are
replaced by their domains (with `is--<set>` filters and entity joins),
`join` bindings are resolved (time-domain keys against the base
table), the `where` tree is canonicalised, unknown `order_by` fields
are dropped with a warning, and the SQL is produced by the physical
table.  Returns the SQL together with the accumulated warnings. -/
def DDFSchemaM.sqlFor (s : DDFSchemaM) (q : NormQuery) :
    Except QErr (String × List String) := do
  if (s.kindDefs q.fromClause).isNone then .error .notSupported
  let init : List Filter × List JoinItem := ([], [])
  let (filters, joins) ← q.key.foldlM (fun (acc : List Filter × List JoinItem) k => do
    let (filters, joins) := acc
    match s.domains.lookup k with
    | none => pure (filters, joins)
    | some domain =>
      let setFilter : WObj :=
        .cons ("is--" ++ jsToLower k) (.condObj [(CmpOp.eq, .scalar (.boolean true))]) .nil
      if q.fromClause = "entities" then do
        let filters ← s.addFilter filters setFilter
        pure (filters, joins)
      else
        match s.tableFor "entities" [domain] with
        | none => .error .jsCrash
        | some ft => do
          let joins ← addJoin joins ft domain
          let filters ← s.addFilter filters setFilter (some ft.pname)
          pure (filters, joins)) init
  let key := q.key.map (fun k => (s.domains.lookup k).getD k)
  let table ← match s.tableFor q.fromClause key with
    | none => .error .notSupported
    | some t => pure t
  let projection := key ++ q.value
  let (filters, joins) ← q.join.foldlM (fun (acc : List Filter × List JoinItem) jb => do
    let (filters, joins) := acc
    let (joinOn, joinSpec) := jb
    if !(joinVarOk joinOn) then .error .wrongJoin
    let joinSpecKey := joinSpec.key
    let ft := if isInTimeDomain joinSpecKey && joinSpecKey.all (key.contains ·)
      then some table else s.tableFor "entities" joinSpecKey
    match ft with
    | none => .error .wrongJoin
    | some ftab =>
      if ftab = table then do
        let filters ← s.addFilter filters (joinSpec.whereClause.getD .empty)
        pure (filters, joins)
      else do
        let filters ← s.addFilter filters (joinSpec.whereClause.getD .empty) (some ftab.pname)
        let onKey := jsDrop joinOn 1
        let onKey := (s.domains.lookup onKey).getD onKey
        let joins ← addJoin joins ftab onKey
        pure (filters, joins)) (filters, joins)
  let filters ← s.addFilter filters (q.whereClause.getD .empty)
  let defn ← match s.definitionFor q.fromClause key with
    | none => .error .jsCrash
    | some d => pure d
  let values := projection ++ defn.values
  let (sort, warns) := q.order_by.foldl (fun (acc : List (String × String) × List String) f =>
    if values.contains f.1 then (acc.1 ++ [f], acc.2)
    else (acc.1, acc.2 ++ ["WrongOrderBy"])) ([], [])
  let sql ← table.sqlFor { language := q.language, projection, joins, filters, sort }
  .ok (sql, warns)

/-! ### The `Query` class (part_016 lines 7-74) -/

/-- One raw `order_by` element: a bare string or a `{column: direction}`
object. -/
inductive OrderByItem where
  | plain (s : String)
  | spec (col dir : String)

/-- The raw query object as decoded from the request. -/
structure QueryObj where
  key : List String := []
  value : List String := []
  fromClause : String := ""
  whereClause : Option WObj := none
  join : List (String × JoinSpecObj) := []
  order_by : Option (List OrderByItem) := none
  language : Option String := none

/-- The language tag test `/^[a-zA-Z]{2,3}([_-]{1}[-_a-zA-Z0-9]{2,15})?$/`. -/
def langTagOk (s : String) : Bool :=
  let isAlpha := fun c : Char =>
    (97 ≤ c.toNat && c.toNat ≤ 122) || (65 ≤ c.toNat && c.toNat ≤ 90)
  let inClass := fun c : Char =>
    isAlpha c || (48 ≤ c.toNat && c.toNat ≤ 57) || c.toNat = 45 || c.toNat = 95
  let alphas := s.data.takeWhile isAlpha
  let rest := s.data.dropWhile isAlpha
  (alphas.length = 2 || alphas.length = 3) &&
    (match rest with
     | [] => true
     | sep :: tail =>
       (sep.toNat = 45 || sep.toNat = 95) &&
       (2 ≤ tail.length && tail.length ≤ 15) && tail.all inClass)

/-- `Query.validateSyntax` combined with the constructor of part_016:
after validation, `select.key` and `select.value` are sorted in place.
Structural checks (`select` present, arrays, `from` a string) are
enforced by the types of `QueryObj`. -/
def mkQuery (q : QueryObj) : Except QErr NormQuery := do
  match q.language with
  | some l => if !(langTagOk l) then .error .wrongLanguage
  | none => pure ()
  let order_by ← match q.order_by with
    | none => pure ([] : List (String × String))
    | some items => items.mapM (fun item => match item with
      | .plain s => .ok (s, "asc")
      | .spec col dir =>
        if dir = "asc" ∨ dir = "desc" then .ok (col, dir) else .error .wrongOrderBy)
  .ok { key := jsSort q.key, value := jsSort q.value, fromClause := q.fromClause,
        whereClause := q.whereClause, join := q.join, order_by := order_by,
        language := q.language }

/-- `Query.header` (part_016 58-60). -/
def NormQuery.header (q : NormQuery) : List String := q.key ++ q.value

/-- `Query.isForData` (part_016 71-73). -/
def NormQuery.isForData (q : NormQuery) : Bool := q.fromClause = "datapoints"

/-- The unanchored test `/([a-z]+|\*)\.schema/.test(from)`: some
lowercase letter or `*` immediately followed by `.schema` somewhere in
the string. -/
def isForSchemaStr (s : String) : Bool :=
  let rec go : List Char → Bool
    | [] => false
    | c :: cs =>
      (((97 ≤ c.toNat && c.toNat ≤ 122) || c.toNat = 42) &&
        leadsWith (".schema".data) cs) || go cs
  go s.data

def NormQuery.isForSchema (q : NormQuery) : Bool := isForSchemaStr q.fromClause

/-! ### Result framing (`RecordPrinter`, part_016 lines 76-148) -/

/-- A row is kept by the null filter iff some value column (the
positions from `_firstValueIndex` on) is truthy — the source tests
`if (record[idx])`, i.e. JS truthiness, not `!== null`. -/
def keepRecord (firstValueIndex : Nat) (r : List JSValue) : Bool :=
  (r.drop firstValueIndex).any jsTruthy

/-- The preamble pushed before the first record (part_016 102-112). -/
def printerPreamble (version : Option String) (header : List String) : String :=
  "\x7b\n" ++
  (match version with
   | some v => "\"version\":\"" ++ v ++ "\",\n"
   | none => "") ++
  "\"header\":" ++ jsonOfStrings header ++ ",\n" ++
  "\"rows\": [\n"

/-- The rows section: each kept record rendered by `JSON.stringify`,
preceded by a comma except for the first (part_016 113-125). -/
def rowsText (filterNull : Bool) (fvi : Nat) : List (List JSValue) → Nat → String
  | [], _ => ""
  | r :: rs, counter =>
    if filterNull && !(keepRecord fvi r) then rowsText filterNull fvi rs counter
    else (if counter ≠ 0 then "," else "") ++ jsonOfRecord r ++
      rowsText filterNull fvi rs (counter + 1)

/-- The trailer pushed by `_flush` (part_016 133-147): close the rows
array, then one `"level": [...]` member per accumulated log level,
then close the object. -/
def printerTrailer (log : List (String × List String)) : String :=
  "\n]" ++
  (log.foldl (fun acc e => acc ++ ",\"" ++ e.1 ++ "\":" ++ jsonOfStrings e.2) "") ++
  "\x7d"

/-- The complete output of the printer for a full stream of records:
the preamble is emitted on the first record only, so a stream with no
records at all produces no preamble. -/
def printerOutput (version : Option String) (header : List String) (filterNull : Bool)
    (fvi : Nat) (log : List (String × List String)) (records : List (List JSValue)) :
    String :=
  (if records.isEmpty then "" else printerPreamble version header) ++
  rowsText filterNull fvi records 0 ++ printerTrailer log

/-- The records that make it into the rows array. -/
def keptRecords (filterNull : Bool) (fvi : Nat) (records : List (List JSValue)) :
    List (List JSValue) :=
  if filterNull then records.filter (keepRecord fvi) else records

/-! ### Service-level framing (ddf/datasets.js 664-700 and part_006) -/

/-- Modelled from the spec: the query accumulates `info`/`warn`
messages during compilation and streaming (`ddfQuery.info`,
`ddfQuery.warn`); the `Query` methods that collect them and the wiring
that hands the collected log to the printer are not part of the
snapshot, so the log is threaded explicitly.  Per the spec the encoder
"appends any `info`/`warn` arrays accumulated during compilation". -/
structure QueryLog where
  info : List String := []
  warn : List String := []

def QueryLog.entries (log : QueryLog) : List (String × List String) :=
  (if log.info.isEmpty then [] else [("info", log.info)]) ++
  (if log.warn.isEmpty then [] else [("warn", log.warn)])

/-- `Dataset.queryStream` zero-row framing (ddf/datasets.js 677-687):
when the database stream ends without data, the handler notes
`DB found 0 records` and substitutes an `ArrayStream([ [] ])`, a
single empty placeholder record. -/
def framedRecords (dbRows : List (List JSValue)) : List (List JSValue) × Bool :=
  if dbRows.isEmpty then ([[]], true) else (dbRows, false)

/-- The body of a query response (part_006 153-172: printer over the
record stream, with `filterNullRecords = ddfQuery.isForData` and the
first value index taken from the sorted `select.key`). -/
def serviceResponseBody (q : NormQuery) (version : String) (warns : List String)
    (dbRows : List (List JSValue)) : String :=
  let fr := framedRecords dbRows
  let log : QueryLog := { info := if fr.2 then ["DB found 0 records"] else [], warn := warns }
  printerOutput (some version) q.header q.isForData q.key.length log.entries fr.1

/-- The structured rows of a query response. -/
def serviceRows (q : NormQuery) (dbRows : List (List JSValue)) : List (List JSValue) :=
  keptRecords q.isForData q.key.length (framedRecords dbRows).1

/-! ### Catalog rows and `Dataset.open` (ddf/datasets.js 570-599) -/

/-- One row of the `datasets` table. -/
structure DsRow where
  name : String
  version : String
  isDefault : Bool := false
  imported : Nat := 0
  password : Option String := none
deriving DecidableEq

/-- `ORDER BY is__default DESC, imported DESC` as a total preorder. -/
def OpenLe (a b : DsRow) : Prop :=
  (a.isDefault = true ∧ b.isDefault = false) ∨
  (a.isDefault = b.isDefault ∧ b.imported ≤ a.imported)

instance : DecidableRel OpenLe := fun a b => by unfold OpenLe; infer_instance

/-- `ORDER BY imported DESC` as a total preorder. -/
def LatestLe (a b : DsRow) : Prop := b.imported ≤ a.imported

instance : DecidableRel LatestLe := fun a b => by unfold LatestLe; infer_instance

/-- The `SELECT ... FROM datasets WHERE name = ...` of `Dataset.open`:
without a version the rows are ordered by default flag then import
time; with `latest` by import time; with a literal version the filter
is an exact match and no ordering is applied.  `docs[0]` takes the
first row. -/
def openSelect (catalog : List DsRow) (name : String) (version : Option String) :
    Option DsRow :=
  let rows := catalog.filter (fun r => r.name == name)
  match version with
  | some v =>
    if v = "latest" then (List.insertionSort LatestLe rows).head?
    else (rows.filter (fun r => r.version == v)).head?
  | none => (List.insertionSort OpenLe rows).head?

/-- The outcome of `Dataset.open`: an existing catalog row, or a fresh
in-memory dataset when nothing matched and `mustExist` is false. -/
inductive OpenResult where
  | found (r : DsRow)
  | fresh (version : Option String)
deriving DecidableEq

/-- `Dataset.open(name, version, mustExist)` (ddf/datasets.js
570-599). -/
def openDataset (catalog : List DsRow) (name : String) (version : Option String)
    (mustExist : Bool) : Except String OpenResult :=
  match openSelect catalog name version with
  | some r => .ok (.found r)
  | none =>
    if mustExist then .error "DDF_DATASET_NOT_FOUND"
    else .ok (.fresh (if version = some "latest" then none else version))

/-! ### `Dataset.makeDefaultVersion` (ddf/datasets.js 1006-1041) -/

def makeDefaultVersion (catalog : List DsRow) (name version : String) :
    Except String (List DsRow) :=
  let versions := catalog.filter (fun r => r.name == name)
  if versions.isEmpty then .error "Dataset does not exist."
  else if version ≠ "latest" ∧ (versions.filter (fun r => r.version == version)).isEmpty then
    .error "Version does not exist."
  else
    let st1 := catalog.map (fun r =>
      if r.name == name && r.isDefault then { r with isDefault := false } else r)
    if version = "latest" then .ok st1
    else
      let st2 := st1.map (fun r =>
        if r.name == name && r.version == version then { r with isDefault := true } else r)
      let defaults := st2.filter (fun r => r.name == name && r.isDefault)
      if defaults.length ≠ 1 ∨ (defaults.head?.map (fun r => r.version)) ≠ some version then
        .error "Default version could not be set"
      else .ok st2

/-! ### Version assignment (`Dataset.incrementVersion`, ddf/datasets.js 480-504) -/

def pad2 (n : Nat) : String := if n < 10 then "0" ++ toString n else toString n

def pad4 (n : Nat) : String :=
  if n < 10 then "000" ++ toString n
  else if n < 100 then "00" ++ toString n
  else if n < 1000 then "0" ++ toString n
  else toString n

/-- A calendar date (UTC). -/
structure UTCDate where
  y : Nat
  m : Nat
  d : Nat
deriving DecidableEq

def isLeapYear (y : Nat) : Bool := (y % 4 = 0 && y % 100 ≠ 0) || y % 400 = 0

def daysInMonth (y m : Nat) : Nat :=
  if m = 2 then (if isLeapYear y then 29 else 28)
  else if m = 4 ∨ m = 6 ∨ m = 9 ∨ m = 11 then 30
  else 31

def UTCDate.valid (dt : UTCDate) : Bool :=
  1 ≤ dt.m && dt.m ≤ 12 && 1 ≤ dt.d && dt.d ≤ daysInMonth dt.y dt.m && dt.y ≤ 9999

def UTCDate.fmt (dt : UTCDate) : String := pad4 dt.y ++ pad2 dt.m ++ pad2 dt.d

/-- Day-granularity comparison (`isSameOrAfter(..., 'day')`). -/
def UTCDate.sameOrAfter (a b : UTCDate) : Bool :=
  b.y < a.y || (b.y = a.y && (b.m < a.m || (b.m = a.m && b.d ≤ a.d)))

def isDigit (c : Char) : Bool := 48 ≤ c.toNat && c.toNat ≤ 57

def digitVal (c : Char) : Nat := c.toNat - 48

def natOfDigits (l : List Char) : Nat := l.foldl (fun acc c => 10 * acc + digitVal c) 0

/-- Strict `Moment.utc(root, 'YYYYMMDD', true)`: exactly eight digits
forming a valid calendar date. -/
def parseYYYYMMDD (s : String) : Option UTCDate :=
  let l := s.data
  if l.length = 8 && l.all isDigit then
    let dt : UTCDate := { y := natOfDigits (l.take 4),
                          m := natOfDigits ((l.drop 4).take 2),
                          d := natOfDigits (l.drop 6) }
    if dt.valid then some dt else none
  else none

/-- `/[0-9]{2}$/.test(version)`. -/
def endsWithTwoDigits (s : String) : Bool :=
  match s.data.reverse with
  | a :: b :: _ => isDigit a && isDigit b
  | _ => false

/-- `Dataset.incrementVersion` (ddf/datasets.js 480-504), with the
current UTC date passed explicitly.  `Moment.utc().seconds(1)` on a
midnight timestamp followed by `format('YYYYMMDDss')` yields the date
digits followed by `01`; `seconds(nn + 1)` yields the date digits
followed by `(nn + 1) % 60` zero-padded (setting 60 or more seconds
rolls over into minutes, which the format does not show). -/
def incrementVersion (today : UTCDate) (version : Option String)
    (newVersion : Option String := none) : String :=
  match version with
  | none => newVersion.getD (today.fmt ++ "01")
  | some v =>
    match newVersion with
    | some nv => nv
    | none =>
      if endsWithTwoDigits v then
        let root := String.mk (v.data.dropLast.dropLast)
        let minor := natOfDigits (v.data.reverse.take 2).reverse
        match parseYYYYMMDD root with
        | some dt =>
          if dt.sameOrAfter today then dt.fmt ++ pad2 ((minor + 1) % 60)
          else today.fmt ++ "01"
        | none => root ++ (if minor < 10 then "0" else "") ++ toString (minor + 1)
      else v ++ "1"

/-! ### CSV schema inference (`Table._updateSchemaWith`, collections.js 709-773) -/

/-- Update one column definition with one observed (prepared, non-null)
value.  Mirrors the source: cardinality tracking for key columns, then
the type inference switch on the JS type of the value. -/
def updateColDef (columnInKey : Bool) (cd : Option ColDef) (columnName : String)
    (v : JSValue) : ColDef :=
  let def0 := cd.getD (if columnInKey then { uniques := some [] } else {})
  let def1 :=
    match def0.uniques with
    | some us =>
      if def0.cardinality.getD 0 < 201 then
        let us := if us.contains v then us else us ++ [v]
        if us.length > 200 then { def0 with uniques := none, cardinality := some us.length }
        else { def0 with uniques := some us, cardinality := some us.length }
      else def0
    | none => def0
  match v with
  | .num q =>
    if q.den = 1 then
      if def1.sqlType = none ∨ def1.sqlType = some "INTEGER" then
        { def1 with sqlType := some (if q > 2147483647 then "BIGINT" else "INTEGER") }
      else def1
    else
      if def1.sqlType ≠ some "VARCHAR" then { def1 with sqlType := some "DOUBLE" }
      else def1
  | .boolean _ =>
    if def1.sqlType = none then { def1 with sqlType := some "BOOLEAN" } else def1
  | .str s =>
    let sz := max ((sqlSafe s).length + 1) (def1.size.getD 1)
    let def2 := { def1 with size := some sz }
    if (def2.sqlType = none ∨ def2.sqlType = some "BOOLEAN") &&
       (jsStartsWith columnName "is--" || jsToUpper s = "TRUE" || jsToUpper s = "FALSE") then
      { def2 with sqlType := some "BOOLEAN" }
    else if jsStartsWith s "\x7b" || jsStartsWith s "[" then
      if sz > 100 then { def2 with sqlType := some "JSON" }
      else { def2 with sqlType := some "VARCHAR" }
    else if sz > 2000 then { def2 with sqlType := some "TEXT" }
    else if def2.sqlType ≠ some "TEXT" then { def2 with sqlType := some "VARCHAR" }
    else def2
  | .nullv => def1

/-! ### Password verification (ddf/datasets.js 601-645, part_006 125-131) -/

/-- An HTTP Basic credential as produced by `BasicAuth`. -/
structure Credential where
  name : String
  pass : String
deriving DecidableEq

/-- The catalog data of an opened dataset version relevant to
authentication. -/
structure DatasetAuth where
  name : String
  passwordHash : Option String := none
deriving DecidableEq

/-- `isProtected`: the dataset has a (non-empty) stored password hash. -/
def DatasetAuth.isProtected (ds : DatasetAuth) : Bool := ds.passwordHash.isSome

/-- `verifyCredential` (ddf/datasets.js 613-617), parameterised by the
hash function (the source uses SHA-256 hex via `Crypto`): asserts a
credential is present, its user name equals the dataset name, and the
hash of its password equals the stored hash. -/
def verifyCredential (hashHex : String → String) (ds : DatasetAuth)
    (credential : Option Credential) : Bool :=
  match credential with
  | none => false
  | some c => c.name == ds.name && some (hashHex c.pass) == ds.passwordHash

/-- The service-visible errors of the query route. -/
inductive ServiceErr where
  | passwordRequired
  | datasetNotFound
  | queryError
  | connectionTimeout
  | other
deriving DecidableEq

/-- The credential gate at the top of `Dataset.queryStream`
(ddf/datasets.js 636-645): a failed verification on a protected
version becomes the `PASSWORD_REQUIRED` error. -/
def queryStreamGate (hashHex : String → String) (ds : DatasetAuth)
    (credential : Option Credential) : Except ServiceErr Unit :=
  if ds.isProtected then
    if verifyCredential hashHex ds credential then .ok () else .error .passwordRequired
  else .ok ()

/-- The error-to-status mapping of the HTTP handler (part_006
127-151). -/
def httpStatusFor : ServiceErr → Nat
  | .passwordRequired => 401
  | .datasetNotFound => 404
  | .queryError => 400
  | .connectionTimeout => 503
  | .other => 500

/-! ### Concrete instances used by the claim checks -/

/-- A character none of whose occurrences is rewritten by `sqlSafe`. -/
def plainSqlChar (c : Char) : Bool :=
  !(c.toNat = 39 || c.toNat = 92 || c.toNat = 37 || c.toNat = 0 || c.toNat = 8 ||
    c.toNat = 9 || c.toNat = 26 || c.toNat = 10 || c.toNat = 13)

/-- The version-assignment rule exactly as §4.6 of the spec states it:
a fresh dataset gets today's UTC date followed by `01`; a prior
version ending in two digits has those digits incremented with
zero-padding (for a version of the form `YYYYMMDDnn` for today's date
this coincides with incrementing `nn`); anything else gets `1`
appended. -/
def incrementVersionClaim (today : UTCDate) (version : Option String) : String :=
  match version with
  | none => today.fmt ++ "01"
  | some v =>
    if endsWithTwoDigits v then
      String.mk (v.data.dropLast.dropLast) ++
        pad2 (natOfDigits ((v.data.reverse.take 2).reverse) + 1)
    else v ++ "1"

def c1Table : STable :=
  { name := "test_concepts_v1", keys := ["concept"],
    schemaCols := [("concept", { sqlType := some "VARCHAR", size := some 20 }),
                   ("color", { sqlType := some "VARCHAR", size := some 20 })] }

def c1Schema : DDFSchemaM :=
  { concepts := [("concept", { values := ["color"], table := some (.single c1Table) })] }

/-- A query filtering on the user-supplied string `a'b`. -/
def c1Query : NormQuery :=
  { key := ["concept"], value := ["color"], fromClause := "concepts",
    whereClause := some (.cons "color" (.condObj [(CmpOp.eq, .scalar (.str "a\x27b"))]) .nil) }

def c1Sql : String :=
  "SELECT `test_concepts_v1`.`concept`, `test_concepts_v1`.`color` FROM `test_concepts_v1`\nWHERE `test_concepts_v1`.`color` <=> \x27a\x27b\x27;"

/-- The datapoints query of the repository test `null and zero values`
(test/service.js 396-411), after normalisation. -/
def c2Query : NormQuery :=
  { key := ["country", "gas", "time"], value := ["emissions"], fromClause := "datapoints" }

/-- The result row `['fin','sulfur',2001,0]` the test expects to be in
the response. -/
def c2Row : List JSValue := [.str "fin", .str "sulfur", .num 2001, .num 0]

def c6Base : STable :=
  { name := "dps", keys := ["geo", "time"],
    schemaCols := [("geo", { sqlType := some "INTEGER" }),
                   ("time", { sqlType := some "INTEGER" }),
                   ("v1", { sqlType := some "VARCHAR", size := some 3000 }),
                   ("v2", { sqlType := some "VARCHAR", size := some 3000 }),
                   ("v3", { sqlType := some "VARCHAR", size := some 3000 })] }

/-- Splitting `c6Base` puts `v1` and `v2` into shard `dps_A` and `v3`
into shard `dps_B` (each VARCHAR(3000) is estimated at 3302 bytes, so
a third one would cross the 8000-byte row limit). -/
def c6Wide : WTable := WTable.split c6Base

def c6ShardA : STable :=
  { name := "dps_A", keys := ["geo", "time"],
    schemaCols := [("geo", { sqlType := some "INTEGER" }),
                   ("time", { sqlType := some "INTEGER" }),
                   ("v1", { sqlType := some "VARCHAR", size := some 3000 }),
                   ("v2", { sqlType := some "VARCHAR", size := some 3000 })],
    values := ["v1", "v2"] }

def c6ShardB : STable :=
  { name := "dps_B", keys := ["geo", "time"],
    schemaCols := [("geo", { sqlType := some "INTEGER" }),
                   ("time", { sqlType := some "INTEGER" }),
                   ("v3", { sqlType := some "VARCHAR", size := some 3000 })],
    values := ["v3"] }

def c6JoinSql : String :=
  "SELECT `dps_A`.`geo`, `dps_A`.`time`, `dps_A`.`v1`, `dps_A`.`v2` FROM `dps_A`\n  JOIN `dps_B` ON `dps_A`.`geo`=`dps_B`.`geo` AND `dps_A`.`time`=`dps_B`.`time`;"

def c3Catalog : List DsRow :=
  [⟨"test", "v1", false, 1, none⟩, ⟨"test", "v2", true, 2, none⟩,
   ⟨"test", "v3", false, 3, none⟩, ⟨"other", "v9", false, 9, none⟩]

def c4Catalog : List DsRow :=
  [⟨"t", "v1", true, 1, none⟩, ⟨"t", "v2", false, 2, none⟩, ⟨"u", "w1", true, 5, none⟩]

def c4After : List DsRow :=
  [⟨"t", "v1", false, 1, none⟩, ⟨"t", "v2", true, 2, none⟩, ⟨"u", "w1", true, 5, none⟩]

def c4AfterLatest : List DsRow :=
  [⟨"t", "v1", false, 1, none⟩, ⟨"t", "v2", false, 2, none⟩, ⟨"u", "w1", true, 5, none⟩]

def c7Query : NormQuery :=
  { key := ["key", "value"], value := [], fromClause := "concepts" }

/-! ### Helper lemmas -/

theorem char_eq_of_toNat_eq {a b : Char} (h : a.toNat = b.toNat) : a = b := by
  have hv : a.val = b.val := by
    unfold Char.toNat at h
    exact UInt32.toNat.inj h
  exact Char.eq_of_val_eq hv

theorem listCharCmp_eq_iff : ∀ (a b : List Char), listCharCmp a b = .eq ↔ a = b
  | [], [] => by simp [listCharCmp]
  | [], _ :: _ => by simp [listCharCmp]
  | _ :: _, [] => by simp [listCharCmp]
  | a :: as, b :: bs => by
    simp only [listCharCmp]
    split
    · constructor
      · intro h; cases h
      · intro h
        injection h with h1 _
        subst h1; omega
    · split
      · constructor
        · intro h; cases h
        · intro h
          injection h with h1 _
          subst h1; omega
      · rw [listCharCmp_eq_iff as bs]
        have hab : a = b := char_eq_of_toNat_eq (by omega)
        subst hab
        constructor
        · intro h; rw [h]
        · intro h; injection h

theorem listCharCmp_swap : ∀ (a b : List Char),
    listCharCmp b a = (listCharCmp a b).swap
  | [], [] => rfl
  | [], _ :: _ => rfl
  | _ :: _, [] => rfl
  | a :: as, b :: bs => by
    simp only [listCharCmp]
    rcases Nat.lt_trichotomy a.toNat b.toNat with h | h | h
    · simp [h, Nat.lt_asymm h, Ordering.swap]
    · simp [h, Nat.lt_irrefl, listCharCmp_swap as bs]
    · simp [h, Nat.lt_asymm h, Ordering.swap]

theorem listCharCmp_lt_trans : ∀ {a b c : List Char},
    listCharCmp a b = .lt → listCharCmp b c = .lt → listCharCmp a c = .lt := by
  intro a
  induction a with
  | nil =>
    intro b c hab hbc
    cases b with
    | nil => cases hab
    | cons b bs =>
      cases c with
      | nil => cases hbc
      | cons c cs => rfl
  | cons a as ih =>
    intro b c hab hbc
    cases b with
    | nil => cases hab
    | cons b bs =>
      cases c with
      | nil => cases hbc
      | cons c cs =>
        simp only [listCharCmp] at hab hbc ⊢
        split at hab
        · -- a.toNat < b.toNat
          split at hbc
          · split
            · rfl
            · split <;> omega
          · split at hbc
            · cases hbc
            · -- b.toNat = c.toNat
              split
              · rfl
              · split <;> omega
        · split at hab
          · cases hab
          · -- a.toNat = b.toNat
            split at hbc
            · split
              · rfl
              · split <;> omega
            · split at hbc
              · cases hbc
              · split
                · rfl
                · split
                  · omega
                  · exact ih hab hbc

theorem jsLe_total (a b : String) : JsLe a b ∨ JsLe b a := by
  unfold JsLe jsStrLe
  rw [listCharCmp_swap a.data b.data]
  rcases h : listCharCmp a.data b.data with _ | _ | _ <;> decide

theorem jsLe_trans {a b c : String} : JsLe a b → JsLe b c → JsLe a c := by
  unfold JsLe jsStrLe
  intro hab hbc
  rcases h1 : listCharCmp a.data b.data with _ | _ | _ <;> rw [h1] at hab
  · rcases h2 : listCharCmp b.data c.data with _ | _ | _ <;> rw [h2] at hbc
    · rw [listCharCmp_lt_trans h1 h2]; rfl
    · have hd : b.data = c.data := (listCharCmp_eq_iff _ _).1 h2
      rw [← hd, h1]; rfl
    · cases hbc
  · have hd : a.data = b.data := (listCharCmp_eq_iff _ _).1 h1
    rw [hd]; exact hbc
  · cases hab

theorem jsLe_antisymm {a b : String} : JsLe a b → JsLe b a → a = b := by
  unfold JsLe jsStrLe
  intro hab hba
  rw [listCharCmp_swap a.data b.data] at hba
  rcases h1 : listCharCmp a.data b.data with _ | _ | _ <;> rw [h1] at hab hba
  · cases hba
  · have hd : a.data = b.data := (listCharCmp_eq_iff _ _).1 h1
    cases a; cases b; cases hd; rfl
  · cases hab

instance : IsTotal String JsLe := ⟨jsLe_total⟩
instance : IsTrans String JsLe := ⟨fun _ _ _ => jsLe_trans⟩
instance : IsAntisymm String JsLe := ⟨fun _ _ => jsLe_antisymm⟩

theorem jsSort_perm (l : List String) : (jsSort l).Perm l :=
  List.perm_insertionSort JsLe l

theorem jsSort_sorted (l : List String) : List.Sorted JsLe (jsSort l) :=
  List.sorted_insertionSort JsLe l

/-- Sorting is invariant under permutation of the input: the JS
normalisation step erases input ordering. -/
theorem jsSort_eq_of_perm {l₁ l₂ : List String} (h : l₁.Perm l₂) :
    jsSort l₁ = jsSort l₂ :=
  List.eq_of_perm_of_sorted
    (((jsSort_perm l₁).trans h).trans (jsSort_perm l₂).symm)
    (jsSort_sorted l₁) (jsSort_sorted l₂)

theorem leadsWith_append_self (p y : List Char) : leadsWith p (p ++ y) = true := by
  induction p with
  | nil => rfl
  | cons c cs ih => simp [leadsWith, ih]

theorem hasSeg_of_leadsWith {p l : List Char} (h : leadsWith p l = true) :
    hasSeg p l = true := by
  cases l with
  | nil => simpa [hasSeg] using h
  | cons c cs => simp [hasSeg, h]

theorem hasSeg_append_right {p t : List Char} (s : List Char)
    (h : hasSeg p t = true) : hasSeg p (s ++ t) = true := by
  induction s with
  | nil => simpa using h
  | cons c cs ih => simp [hasSeg, ih]

theorem leadsWith_extend : ∀ {p s : List Char} (t : List Char),
    leadsWith p s = true → leadsWith p (s ++ t) = true := by
  intro p
  induction p with
  | nil => intro s t _; rfl
  | cons a as ih =>
    intro s t h
    cases s with
    | nil => cases h
    | cons c cs =>
      simp only [leadsWith, Bool.and_eq_true] at h
      simpa [leadsWith, h.1] using ih t h.2

theorem hasSeg_append_left : ∀ {p s : List Char} (t : List Char),
    hasSeg p s = true → hasSeg p (s ++ t) = true := by
  intro p s
  induction s with
  | nil =>
    intro t h
    cases p with
    | nil => cases t with
      | nil => exact h
      | cons c cs => simp [hasSeg, leadsWith]
    | cons a as => simp [hasSeg, leadsWith] at h
  | cons c cs ih =>
    intro t h
    simp only [hasSeg, Bool.or_eq_true] at h
    rcases h with h | h
    · exact hasSeg_of_leadsWith (by simpa using leadsWith_extend t h)
    · simpa [hasSeg] using Or.inr (ih t h)

theorem hasSeg_of_middle (x p y : List Char) : hasSeg p (x ++ p ++ y) = true := by
  rw [List.append_assoc]
  apply hasSeg_append_right x
  exact hasSeg_of_leadsWith (leadsWith_append_self p y)

theorem strHas_append_right {n t : String} (s : String)
    (h : strHas n t = true) : strHas n (s ++ t) = true := by
  unfold strHas at *
  rw [String.data_append]
  exact hasSeg_append_right s.data h

theorem strHas_append_left {n s : String} (t : String)
    (h : strHas n s = true) : strHas n (s ++ t) = true := by
  unfold strHas at *
  rw [String.data_append]
  exact hasSeg_append_left t.data h

theorem strHas_middle (x p y : String) : strHas p (x ++ p ++ y) = true := by
  unfold strHas
  rw [String.data_append, String.data_append]
  exact hasSeg_of_middle x.data p.data y.data

theorem strHas_self (p : String) : strHas p p = true := by
  have := strHas_middle "" p ""
  simpa using this

theorem strExt {a b : String} (h : a.data = b.data) : a = b := by
  cases a; cases b; cases h; rfl

theorem strApp_assoc (a b c : String) : a ++ b ++ c = a ++ (b ++ c) :=
  strExt (by simp [String.data_append])

theorem leadsWith_exists {p l : List Char} (h : leadsWith p l = true) :
    ∃ y, l = p ++ y := by
  induction p generalizing l with
  | nil => exact ⟨l, rfl⟩
  | cons a as ih =>
    cases l with
    | nil => cases h
    | cons c cs =>
      simp only [leadsWith, Bool.and_eq_true, beq_iff_eq] at h
      obtain ⟨y, hy⟩ := ih h.2
      exact ⟨y, by rw [h.1, hy]; rfl⟩

theorem hasSeg_exists {p l : List Char} (h : hasSeg p l = true) :
    ∃ x y, l = x ++ p ++ y := by
  induction l with
  | nil =>
    cases p with
    | nil => exact ⟨[], [], rfl⟩
    | cons a as => simp [hasSeg, leadsWith] at h
  | cons c cs ih =>
    simp only [hasSeg, Bool.or_eq_true] at h
    rcases h with h | h
    · obtain ⟨y, hy⟩ := leadsWith_exists h
      exact ⟨[], y, by simpa using hy⟩
    · obtain ⟨x, y, hxy⟩ := ih h
      exact ⟨c :: x, y, by simp [hxy]⟩

theorem strHas_trans {a b c : String} (hab : strHas a b = true)
    (hbc : strHas b c = true) : strHas a c = true := by
  unfold strHas at *
  obtain ⟨x, y, hxy⟩ := hasSeg_exists hab
  obtain ⟨u, v, huv⟩ := hasSeg_exists hbc
  rw [huv, hxy]
  have : u ++ (x ++ a.data ++ y) ++ v = (u ++ x) ++ a.data ++ (y ++ v) := by
    simp [List.append_assoc]
  rw [this]
  exact hasSeg_of_middle (u ++ x) a.data (y ++ v)

/-- Right-appending folds only extend the accumulator, so substring
occurrence is preserved. -/
theorem strHas_foldl_mono {α : Type} (g : α → String) (l : List α) (acc : String)
    {n : String} (h : strHas n acc = true) :
    strHas n (l.foldl (fun a e => a ++ g e) acc) = true := by
  induction l generalizing acc with
  | nil => exact h
  | cons x xs ih => exact ih (acc ++ g x) (strHas_append_left (g x) h)

/-- Each appended piece occurs in the result of a right-appending
fold. -/
theorem strHas_foldl_mem {α : Type} (g : α → String) :
    ∀ (l : List α) (acc : String) {x : α}, x ∈ l →
    strHas (g x) (l.foldl (fun a e => a ++ g e) acc) = true := by
  intro l
  induction l with
  | nil => intro acc x hx; cases hx
  | cons y ys ih =>
    intro acc x hx
    rcases List.mem_cons.1 hx with h | h
    · subst h
      exact strHas_foldl_mono g ys (acc ++ g x)
        (strHas_append_right acc (strHas_self (g x)))
    · exact ih (acc ++ g y) h

theorem intercalate_go_shift (sep : String) :
    ∀ (ys : List String) (cur₁ cur₂ : String),
    String.intercalate.go (cur₁ ++ cur₂) sep ys = cur₁ ++ String.intercalate.go cur₂ sep ys := by
  intro ys
  induction ys with
  | nil => intro cur₁ cur₂; rfl
  | cons y ys ih =>
    intro cur₁ cur₂
    show String.intercalate.go (cur₁ ++ cur₂ ++ sep ++ y) sep ys =
      cur₁ ++ String.intercalate.go (cur₂ ++ sep ++ y) sep ys
    rw [strApp_assoc, strApp_assoc, ← strApp_assoc cur₂ sep y]
    exact ih cur₁ (cur₂ ++ sep ++ y)

theorem intercalate_cons_cons (sep x y : String) (ys : List String) :
    String.intercalate sep (x :: y :: ys) =
      (x ++ sep) ++ String.intercalate sep (y :: ys) := by
  show String.intercalate.go x sep (y :: ys) = (x ++ sep) ++ String.intercalate.go y sep ys
  show String.intercalate.go (x ++ sep ++ y) sep ys = (x ++ sep) ++ String.intercalate.go y sep ys
  exact intercalate_go_shift sep ys (x ++ sep) y

/-- An element of a list occurs in its intercalation. -/
theorem strHas_intercalate (sep : String) {e : String} :
    ∀ (l : List String), e ∈ l → strHas e (String.intercalate sep l) = true := by
  intro l
  induction l with
  | nil => intro h; cases h
  | cons x xs ih =>
    intro h
    rcases List.mem_cons.1 h with h | h
    · subst h
      cases xs with
      | nil => simpa [String.intercalate] using strHas_self e
      | cons y ys =>
        rw [intercalate_cons_cons]
        have : (e ++ sep) ++ String.intercalate sep (y :: ys) =
            e ++ (sep ++ String.intercalate sep (y :: ys)) := strApp_assoc _ _ _
        rw [this]
        exact strHas_append_left _ (strHas_self e)
    · cases xs with
      | nil => cases h
      | cons y ys =>
        rw [intercalate_cons_cons]
        exact strHas_append_right _ (ih h)

theorem head?_mem {α : Type} {l : List α} {x : α} (h : l.head? = some x) : x ∈ l := by
  cases l with
  | nil => cases h
  | cons a as =>
    simp only [List.head?] at h
    injection h with h
    subst h
    exact List.mem_cons_self a as

/-- The head of an insertion sort is a minimum of the input with
respect to the (total, transitive) sort relation. -/
theorem head_insertionSort_min {r : DsRow → DsRow → Prop} [DecidableRel r]
    [IsTotal DsRow r] [IsTrans DsRow r] (l : List DsRow) (x : DsRow)
    (h : (List.insertionSort r l).head? = some x) :
    x ∈ l ∧ ∀ y ∈ l, r x y := by
  have hperm := List.perm_insertionSort r l
  have hsorted := List.sorted_insertionSort r l
  constructor
  · cases hs : List.insertionSort r l with
    | nil => rw [hs] at h; cases h
    | cons a as =>
      rw [hs] at h
      injection h with h
      have hx : a ∈ List.insertionSort r l := by
        rw [hs]; exact List.mem_cons_self _ _
      rw [← h]
      exact hperm.mem_iff.1 hx
  · intro y hy
    have hy' : y ∈ List.insertionSort r l := hperm.mem_iff.2 hy
    cases hs : List.insertionSort r l with
    | nil => rw [hs] at h; cases h
    | cons a as =>
      rw [hs] at h hy' hsorted
      injection h with h
      subst h
      rcases List.mem_cons.1 hy' with h | h
      · subst h
        rcases IsTotal.total (r := r) y y with ht | ht <;> exact ht
      · exact ((List.sorted_cons.1 hsorted).1 y h)

instance : IsTotal DsRow OpenLe := by
  constructor
  intro a b
  unfold OpenLe
  rcases ha : a.isDefault <;> rcases hb : b.isDefault <;>
    simp [ha, hb] <;> omega

instance : IsTrans DsRow OpenLe := by
  constructor
  intro a b c hab hbc
  unfold OpenLe at *
  rcases hab with ⟨h1, h2⟩ | ⟨h1, h2⟩ <;> rcases hbc with ⟨h3, h4⟩ | ⟨h3, h4⟩
  · simp_all
  · left; exact ⟨h1, by rw [← h3]; exact h2⟩
  · left; exact ⟨h1.trans h3, h4⟩
  · right; exact ⟨h1.trans h3, by omega⟩

instance : IsTotal DsRow LatestLe := by
  constructor; intro a b; unfold LatestLe; omega

instance : IsTrans DsRow LatestLe := by
  constructor; intro a b c hab hbc; unfold LatestLe at *; omega

/-! ### Claim C1 -/

/-- Claim C1 counterexample: compiling a query whose filter compares
against the user-supplied string `a'b` emits that string between
single quotes verbatim — the emitted SQL contains `'a'b'`, and the
`sqlSafe`-escaped form `'a''b'` does not occur, so the compiler does
emit a user-supplied string unescaped. -/
theorem c1_counterexample :
    c1Schema.sqlFor c1Query = .ok (c1Sql, []) ∧
    strHas "\x27a\x27b\x27" c1Sql = true ∧
    sqlSafe "a\x27b" = "a\x27\x27b" ∧
    strHas ("\x27" ++ sqlSafe "a\x27b" ++ "\x27") c1Sql = false :=
  ⟨rfl, rfl, rfl, rfl⟩

/-- Claim C1 (corrected): every identifier in the emitted SQL is
backtick-quoted (qualified as `` `table`.`column` ``), but a string
literal on the right-hand side of a comparison operator is emitted
single-quoted verbatim — `_convertOperand` applies no SQL escaping
(`sqlSafe` is used only by the loader's record upserts). -/
theorem c1_literal_emission (col s : String) (l : List String) (t : STable)
    (n : String) (lang : Option String) :
    condSQL col .eq (.scalar (.str s)) = .ok (col ++ " <=> " ++ ("\x27" ++ s ++ "\x27")) ∧
    condSQL col .ne (.scalar (.str s)) =
      .ok ("! (" ++ col ++ " <=> " ++ ("\x27" ++ s ++ "\x27") ++ ")") ∧
    condSQL col .gt (.scalar (.str s)) = .ok (col ++ " > " ++ ("\x27" ++ s ++ "\x27")) ∧
    condSQL col .gte (.scalar (.str s)) = .ok (col ++ " >= " ++ ("\x27" ++ s ++ "\x27")) ∧
    condSQL col .lt (.scalar (.str s)) = .ok (col ++ " < " ++ ("\x27" ++ s ++ "\x27")) ∧
    condSQL col .lte (.scalar (.str s)) = .ok (col ++ " <= " ++ ("\x27" ++ s ++ "\x27")) ∧
    condSQL col .isIn (.list (l.map Operand.str)) =
      .ok (col ++ " IN (" ++
        String.intercalate ", " (l.map (fun x => "\x27" ++ x ++ "\x27")) ++ ")") ∧
    condSQL col .notIn (.list (l.map Operand.str)) =
      .ok (col ++ " NOT IN (" ++
        String.intercalate ", " (l.map (fun x => "\x27" ++ x ++ "\x27")) ++ ")") ∧
    t.qualifiedCol n lang = "`" ++ t.tableName ++ "`.`" ++ t.column n lang ++ "`" := by
  refine ⟨rfl, rfl, rfl, rfl, rfl, rfl, ?_, ?_, ?_⟩
  · simp only [condSQL]
    rw [List.map_map]
    rfl
  · simp only [condSQL]
    rw [List.map_map]
    rfl
  · simp [STable.qualifiedCol, quoted, strApp_assoc]

/-! ### Claim C2 -/

/-- Claim C2 (code bug): the null-row filter tests JS truthiness
(`if (record[idx])`), so the datapoints row `['fin','sulfur',2001,0]`
— whose single value column is `0`, not null — is suppressed from the
response, although the repository's own test (test/service.js 410)
expects the zero-valued row to be present; for non-datapoints queries
the same row is kept. -/
theorem c2_zero_row_suppressed :
    keepRecord c2Query.key.length c2Row = false ∧
    serviceRows c2Query [c2Row] = [] ∧
    (c2Row.drop c2Query.key.length).all (fun v => v == JSValue.nullv) = false ∧
    serviceRows { c2Query with fromClause := "concepts" } [c2Row] = [c2Row] :=
  ⟨rfl, rfl, rfl, rfl⟩

/-! ### Claim C5 -/

/-- Claim C5 (confirmed): two valid queries that differ only in the
ordering of `select.key` or of `select.value` normalise to the same
query object — the constructor sorts both arrays — and therefore have
identical headers, compile to identical SQL with identical warnings
against every schema, and produce identical response bodies on the
same database rows. -/
theorem c5_ordering_invariance (q1 q2 : QueryObj)
    (hk : q1.key.Perm q2.key) (hv : q1.value.Perm q2.value)
    (hf : q1.fromClause = q2.fromClause) (hw : q1.whereClause = q2.whereClause)
    (hj : q1.join = q2.join) (ho : q1.order_by = q2.order_by)
    (hl : q1.language = q2.language) :
    mkQuery q1 = mkQuery q2 ∧
    ∀ nq1 nq2, mkQuery q1 = .ok nq1 → mkQuery q2 = .ok nq2 →
      nq1.header = nq2.header ∧
      (∀ s : DDFSchemaM, s.sqlFor nq1 = s.sqlFor nq2) ∧
      (∀ version warns dbRows,
        serviceResponseBody nq1 version warns dbRows =
          serviceResponseBody nq2 version warns dbRows) := by
  have hmk : mkQuery q1 = mkQuery q2 := by
    unfold mkQuery
    rw [hf, hw, hj, ho, hl, jsSort_eq_of_perm hk, jsSort_eq_of_perm hv]
  refine ⟨hmk, ?_⟩
  intro nq1 nq2 h1 h2
  rw [hmk] at h1
  rw [h1] at h2
  injection h2 with h2
  subst h2
  exact ⟨rfl, fun _ => rfl, fun _ _ _ => rfl⟩

/-- Claim C5 witness: two concrete queries with permuted `select.key`
and `select.value` normalise identically. -/
theorem c5_witness :
    mkQuery { key := ["time", "geo"], value := ["b", "a"], fromClause := "datapoints" } =
      mkQuery { key := ["geo", "time"], value := ["a", "b"], fromClause := "datapoints" } :=
  (c5_ordering_invariance
    { key := ["time", "geo"], value := ["b", "a"], fromClause := "datapoints" }
    { key := ["geo", "time"], value := ["a", "b"], fromClause := "datapoints" }
    (by decide) (by decide) rfl rfl rfl rfl rfl).1

/-! ### Claim C8 -/

theorem data_mk_two (root : String) (a b : Char) :
    (root ++ (⟨[a, b]⟩ : String)).data = root.data ++ [a, b] := by
  rw [String.data_append]

theorem endsWithTwoDigits_append (root : String) (a b : Char)
    (ha : isDigit a = true) (hb : isDigit b = true) :
    endsWithTwoDigits (root ++ (⟨[a, b]⟩ : String)) = true := by
  unfold endsWithTwoDigits
  rw [data_mk_two]
  simp [ha, hb]

theorem dropLast_two (root : String) (a b : Char) :
    (root ++ (⟨[a, b]⟩ : String)).data.dropLast.dropLast = root.data := by
  rw [data_mk_two]
  have h1 : root.data ++ [a, b] = (root.data ++ [a]) ++ [b] := by simp
  rw [h1]
  have h2 : ((root.data ++ [a]) ++ [b]).dropLast = root.data ++ [a] := by simp
  rw [h2]
  simp

theorem lastTwo_append (root : String) (a b : Char) :
    (((root ++ (⟨[a, b]⟩ : String)).data.reverse.take 2).reverse) = [a, b] := by
  rw [data_mk_two]
  simp

theorem natOfDigits_two (a b : Char) :
    natOfDigits [a, b] = 10 * digitVal a + digitVal b := by
  simp [natOfDigits, List.foldl]

/-- Claim C8 counterexample: for a prior version `2020010105` — the
form `YYYYMMDDnn` for a past date — the code resets to today's date
followed by `01` rather than incrementing the two digits; and for a
prior version `abc09`, incrementing "with zero-padding" yields the
three-digit suffix `010` instead of `10`. -/
theorem c8_counterexample :
    incrementVersion ⟨2026, 10, 11⟩ (some "2020010105") = "2026101101" ∧
    incrementVersionClaim ⟨2026, 10, 11⟩ (some "2020010105") = "2020010106" ∧
    incrementVersion ⟨2026, 10, 11⟩ (some "abc09") = "abc010" ∧
    incrementVersionClaim ⟨2026, 10, 11⟩ (some "abc09") = "abc10" ∧
    ("2026101101" : String) ≠ "2020010106" ∧ ("abc010" : String) ≠ "abc10" :=
  ⟨rfl, rfl, rfl, rfl, by decide, by decide⟩

/-- Claim C8 (corrected): with no prior version the new version is
today's UTC date followed by `01`; a prior version ending in two
digits whose prefix parses as a date on or after today keeps the date
and carries the incremented two digits (modulo 60, via seconds
arithmetic); a prior version dated before today is reset to today's
date followed by `01`; a non-date prefix keeps the prefix and appends
the incremented minor number prefixed with `0` whenever the old minor
number was below 10 (so `09` becomes `010`); otherwise `1` is
appended. -/
theorem c8_version_assignment (today : UTCDate) (root : String) (a b : Char)
    (ha : isDigit a = true) (hb : isDigit b = true) :
    (incrementVersion today none = today.fmt ++ "01") ∧
    (∀ dt, parseYYYYMMDD root = some dt → dt.sameOrAfter today = true →
      incrementVersion today (some (root ++ (⟨[a, b]⟩ : String))) =
        dt.fmt ++ pad2 ((10 * digitVal a + digitVal b + 1) % 60)) ∧
    (∀ dt, parseYYYYMMDD root = some dt → dt.sameOrAfter today = false →
      incrementVersion today (some (root ++ (⟨[a, b]⟩ : String))) = today.fmt ++ "01") ∧
    (parseYYYYMMDD root = none →
      incrementVersion today (some (root ++ (⟨[a, b]⟩ : String))) =
        root ++ (if 10 * digitVal a + digitVal b < 10 then "0" else "") ++
          toString (10 * digitVal a + digitVal b + 1)) ∧
    (∀ v : String, endsWithTwoDigits v = false →
      incrementVersion today (some v) = v ++ "1") := by
  have hroot : String.mk ((root ++ (⟨[a, b]⟩ : String)).data.dropLast.dropLast) = root :=
    strExt (dropLast_two root a b)
  have hminor : natOfDigits (((root ++ (⟨[a, b]⟩ : String)).data.reverse.take 2).reverse) =
      10 * digitVal a + digitVal b := by
    rw [lastTwo_append, natOfDigits_two]
  have hred : ∀ v : String, endsWithTwoDigits v = true →
      incrementVersion today (some v) =
        (match parseYYYYMMDD (String.mk v.data.dropLast.dropLast) with
         | some dt =>
           if dt.sameOrAfter today = true then
             dt.fmt ++ pad2 ((natOfDigits ((v.data.reverse.take 2).reverse) + 1) % 60)
           else today.fmt ++ "01"
         | none =>
           String.mk v.data.dropLast.dropLast ++
             (if natOfDigits ((v.data.reverse.take 2).reverse) < 10 then "0" else "") ++
             toString (natOfDigits ((v.data.reverse.take 2).reverse) + 1)) := by
    intro v hv
    simp only [incrementVersion]
    rw [if_pos hv]
  refine ⟨rfl, ?_, ?_, ?_, ?_⟩
  · intro dt hdt hge
    rw [hred _ (endsWithTwoDigits_append root a b ha hb), hroot, hminor, hdt]
    simp [hge]
  · intro dt hdt hlt
    rw [hred _ (endsWithTwoDigits_append root a b ha hb), hroot, hminor, hdt]
    simp [hlt]
  · intro hnone
    rw [hred _ (endsWithTwoDigits_append root a b ha hb), hroot, hminor, hnone]
  · intro v hv
    simp only [incrementVersion]
    rw [if_neg (by rw [hv]; exact Bool.false_ne_true)]

/-- Claim C8 witness: the corrected rule evaluated at a past-dated
version. -/
theorem c8_witness :
    incrementVersion ⟨2026, 10, 11⟩ (some ("20200101" ++ (⟨['0', '5']⟩ : String))) =
      UTCDate.fmt ⟨2026, 10, 11⟩ ++ "01" :=
  (c8_version_assignment ⟨2026, 10, 11⟩ "20200101" '0' '5' (by decide) (by decide)).2.2.1
    ⟨2020, 1, 1⟩ (by decide) (by decide)

/-! ### Claim C9 -/

theorem sqlSafeChar_plain {c : Char} (h : plainSqlChar c = true) :
    sqlSafeChar c = [c] := by
  unfold plainSqlChar at h
  unfold sqlSafeChar
  simp only [Bool.not_eq_true', Bool.or_eq_false_iff, decide_eq_false_iff_not] at h
  obtain ⟨⟨⟨⟨⟨⟨⟨⟨h1, h2⟩, h3⟩, h4⟩, h5⟩, h6⟩, h7⟩, h8⟩, h9⟩ := h
  rw [if_neg h1, if_neg h2, if_neg h3, if_neg (by tauto)]

theorem sqlSafeList_plain : ∀ {l : List Char}, l.all plainSqlChar = true →
    sqlSafeList l = l := by
  intro l
  induction l with
  | nil => intro _; rfl
  | cons c cs ih =>
    intro h
    rw [List.all_cons, Bool.and_eq_true] at h
    show sqlSafeChar c ++ sqlSafeList cs = c :: cs
    rw [sqlSafeChar_plain h.1, ih h.2]
    rfl

/-- Claim C9 (confirmed): during schema inference, a (plain) string
value of exactly 2000 characters makes the column's recorded size
2001, crossing the `TEXT` threshold (`def.size > 2000`), so the
column is typed `TEXT`; a 1999-character value yields size 2000 and
the column is typed `VARCHAR`. -/
theorem c9_text_threshold (s columnName : String)
    (hplain : s.data.all plainSqlChar = true)
    (hcol : jsStartsWith columnName "is--" = false)
    (hbrace : jsStartsWith s "\x7b" = false)
    (hbracket : jsStartsWith s "[" = false)
    (htrue : jsToUpper s ≠ "TRUE") (hfalse : jsToUpper s ≠ "FALSE") :
    (s.length = 2000 → (updateColDef false none columnName (.str s)).sqlType = some "TEXT") ∧
    (s.length = 1999 →
      (updateColDef false none columnName (.str s)).sqlType = some "VARCHAR") := by
  have hsafe : sqlSafe s = s := strExt (sqlSafeList_plain hplain)
  have hlen : (sqlSafe s).length = s.length := by rw [hsafe]
  constructor
  · intro h2000
    unfold updateColDef
    simp only [Option.getD_none, hlen, h2000]
    simp [hcol, hbrace, hbracket, htrue, hfalse]
  · intro h1999
    unfold updateColDef
    simp only [Option.getD_none, hlen, h1999]
    simp [hcol, hbrace, hbracket, htrue, hfalse]

/-- Claim C9 witness: a 2000-character column value is typed `TEXT`, a
1999-character one `VARCHAR`. -/
theorem c9_witness :
    (updateColDef false none "c"
      (.str (String.mk (List.replicate 2000 'a')))).sqlType = some "TEXT" ∧
    (updateColDef false none "c"
      (.str (String.mk (List.replicate 1999 'a')))).sqlType = some "VARCHAR" := by
  constructor
  · exact (c9_text_threshold (String.mk (List.replicate 2000 'a')) "c"
      (by rw [List.all_eq_true]; intro c hc; rw [List.eq_of_mem_replicate hc]; decide)
      (by decide) (by decide) (by decide)
      (by intro h
          have hlen := congrArg (fun t => t.data.length) h
          simp only [jsToUpper, List.length_map, List.length_replicate] at hlen
          exact absurd hlen (by decide))
      (by intro h
          have hlen := congrArg (fun t => t.data.length) h
          simp only [jsToUpper, List.length_map, List.length_replicate] at hlen
          exact absurd hlen (by decide))).1
      (by simp only [String.length, List.length_replicate])
  · exact (c9_text_threshold (String.mk (List.replicate 1999 'a')) "c"
      (by rw [List.all_eq_true]; intro c hc; rw [List.eq_of_mem_replicate hc]; decide)
      (by decide) (by decide) (by decide)
      (by intro h
          have hlen := congrArg (fun t => t.data.length) h
          simp only [jsToUpper, List.length_map, List.length_replicate] at hlen
          exact absurd hlen (by decide))
      (by intro h
          have hlen := congrArg (fun t => t.data.length) h
          simp only [jsToUpper, List.length_map, List.length_replicate] at hlen
          exact absurd hlen (by decide))).2
      (by simp only [String.length, List.length_replicate])

/-! ### Claim C10 -/

/-- Claim C10 (confirmed): on a version with a stored password hash,
the query gate succeeds exactly when a Basic credential is supplied
whose user name equals the dataset name and whose hashed password
equals the stored hash; a missing credential, and a credential with a
different user name (even with the correct password), raise
`PASSWORD_REQUIRED`, which the HTTP layer maps to status 401.  The
hash function (SHA-256 hex in the source, via `Crypto`) is passed as a
parameter. -/
theorem c10_password_gate (hashHex : String → String) (ds : DatasetAuth) (h : String)
    (hp : ds.passwordHash = some h) :
    (∀ c : Credential, queryStreamGate hashHex ds (some c) = .ok () ↔
      (c.name = ds.name ∧ hashHex c.pass = h)) ∧
    (queryStreamGate hashHex ds none = .error .passwordRequired) ∧
    (∀ c : Credential, c.name ≠ ds.name →
      queryStreamGate hashHex ds (some c) = .error .passwordRequired) ∧
    httpStatusFor .passwordRequired = 401 := by
  have hprot : ds.isProtected = true := by
    unfold DatasetAuth.isProtected
    rw [hp]
    rfl
  refine ⟨?_, ?_, ?_, rfl⟩
  · intro c
    unfold queryStreamGate
    rw [hprot]
    simp only [if_true]
    unfold verifyCredential
    rw [hp]
    constructor
    · intro hok
      by_cases hv : (c.name == ds.name && some (hashHex c.pass) == some h) = true
      · rw [Bool.and_eq_true, beq_iff_eq, beq_iff_eq] at hv
        exact ⟨hv.1, Option.some_injective _ hv.2⟩
      · rw [if_neg hv] at hok
        cases hok
    · intro ⟨h1, h2⟩
      rw [if_pos (by rw [Bool.and_eq_true, beq_iff_eq, beq_iff_eq, h1, h2]; exact ⟨rfl, rfl⟩)]
  · unfold queryStreamGate
    rw [hprot]
    rfl
  · intro c hc
    unfold queryStreamGate
    rw [hprot]
    simp only [if_true]
    unfold verifyCredential
    rw [if_neg (by rw [Bool.and_eq_true, beq_iff_eq]; intro hv; exact hc hv.1)]

/-- Claim C10 witness: with the hash modelled as appending `#`, the
matching credential is served, while a wrong user name with the right
password, and a missing credential, get `PASSWORD_REQUIRED` → 401. -/
theorem c10_witness :
    queryStreamGate (fun s => s ++ "#") ⟨"ds1", some "pw#"⟩ (some ⟨"ds1", "pw"⟩) = .ok () ∧
    queryStreamGate (fun s => s ++ "#") ⟨"ds1", some "pw#"⟩ (some ⟨"other", "pw"⟩) =
      .error .passwordRequired ∧
    queryStreamGate (fun s => s ++ "#") ⟨"ds1", some "pw#"⟩ none = .error .passwordRequired ∧
    httpStatusFor .passwordRequired = 401 :=
  ⟨((c10_password_gate (fun s => s ++ "#") ⟨"ds1", some "pw#"⟩ "pw#" rfl).1
      ⟨"ds1", "pw"⟩).2 ⟨rfl, rfl⟩,
   (c10_password_gate (fun s => s ++ "#") ⟨"ds1", some "pw#"⟩ "pw#" rfl).2.2.1
      ⟨"other", "pw"⟩ (by decide),
   (c10_password_gate (fun s => s ++ "#") ⟨"ds1", some "pw#"⟩ "pw#" rfl).2.1,
   (c10_password_gate (fun s => s ++ "#") ⟨"ds1", some "pw#"⟩ "pw#" rfl).2.2.2⟩

/-! ### Claim C3 -/

/-- Claim C3 (confirmed): a catalog lookup without a version returns
the unique default row when one exists, and otherwise a
most-recently-imported row for the name; with the token `latest` it
returns a most-recently-imported row regardless of defaults; with any
other literal only an exact name/version match is returned, and with
`mustExist` a missing match raises the `DDF_DATASET_NOT_FOUND`
error. -/
theorem c3_open_resolution (catalog : List DsRow) (name : String) :
    (∀ r ∈ catalog, r.name = name → r.isDefault = true →
      (∀ r' ∈ catalog, r'.name = name → r'.isDefault = true → r' = r) →
      openSelect catalog name none = some r) ∧
    ((∀ r ∈ catalog, r.name = name → r.isDefault = false) →
      ∀ r0 ∈ catalog, r0.name = name →
      ∃ x, openSelect catalog name none = some x ∧ x ∈ catalog ∧ x.name = name ∧
        ∀ y ∈ catalog, y.name = name → y.imported ≤ x.imported) ∧
    (∀ r0 ∈ catalog, r0.name = name →
      ∃ x, openSelect catalog name (some "latest") = some x ∧ x ∈ catalog ∧ x.name = name ∧
        ∀ y ∈ catalog, y.name = name → y.imported ≤ x.imported) ∧
    (∀ v, v ≠ "latest" →
      (∀ x, openSelect catalog name (some v) = some x →
        x ∈ catalog ∧ x.name = name ∧ x.version = v) ∧
      (openSelect catalog name (some v) = none →
        openDataset catalog name (some v) true = .error "DDF_DATASET_NOT_FOUND")) := by
  have hmem : ∀ {r : DsRow}, r ∈ catalog.filter (fun r => r.name == name) ↔
      r ∈ catalog ∧ r.name = name := by
    intro r
    rw [List.mem_filter, beq_iff_eq]
  refine ⟨?_, ?_, ?_, ?_⟩
  · intro r hr hname hdef huniq
    show (List.insertionSort OpenLe (catalog.filter (fun r => r.name == name))).head? = some r
    have hrf : r ∈ catalog.filter (fun r => r.name == name) := hmem.2 ⟨hr, hname⟩
    cases hh : (List.insertionSort OpenLe (catalog.filter (fun r => r.name == name))).head? with
    | none =>
      exfalso
      have : r ∈ List.insertionSort OpenLe (catalog.filter (fun r => r.name == name)) :=
        (List.perm_insertionSort OpenLe _).mem_iff.2 hrf
      cases hs : List.insertionSort OpenLe (catalog.filter (fun r => r.name == name)) with
      | nil => rw [hs] at this; cases this
      | cons a as => rw [hs] at hh; cases hh
    | some x =>
      obtain ⟨hxmem, hxmin⟩ := head_insertionSort_min _ x hh
      obtain ⟨hxc, hxname⟩ := hmem.1 hxmem
      have hle := hxmin r hrf
      have hxdef : x.isDefault = true := by
        rcases hle with ⟨h1, _⟩ | ⟨h1, _⟩
        · exact h1
        · rw [h1, hdef]
      rw [huniq x hxc hxname hxdef]
  · intro hnodef r0 hr0 hr0n
    have hr0f : r0 ∈ catalog.filter (fun r => r.name == name) := hmem.2 ⟨hr0, hr0n⟩
    cases hh : (List.insertionSort OpenLe (catalog.filter (fun r => r.name == name))).head? with
    | none =>
      exfalso
      have : r0 ∈ List.insertionSort OpenLe (catalog.filter (fun r => r.name == name)) :=
        (List.perm_insertionSort OpenLe _).mem_iff.2 hr0f
      cases hs : List.insertionSort OpenLe (catalog.filter (fun r => r.name == name)) with
      | nil => rw [hs] at this; cases this
      | cons a as => rw [hs] at hh; cases hh
    | some x =>
      obtain ⟨hxmem, hxmin⟩ := head_insertionSort_min _ x hh
      obtain ⟨hxc, hxname⟩ := hmem.1 hxmem
      refine ⟨x, hh, hxc, hxname, ?_⟩
      intro y hy hyn
      have hle := hxmin y (hmem.2 ⟨hy, hyn⟩)
      rcases hle with ⟨h1, _⟩ | ⟨_, h2⟩
      · exact absurd h1 (by simp [hnodef x hxc hxname])
      · exact h2
  · intro r0 hr0 hr0n
    have hr0f : r0 ∈ catalog.filter (fun r => r.name == name) := hmem.2 ⟨hr0, hr0n⟩
    show ∃ x, (if ("latest" : String) = "latest" then
        (List.insertionSort LatestLe (catalog.filter (fun r => r.name == name))).head?
      else ((catalog.filter (fun r => r.name == name)).filter
        (fun r => r.version == "latest")).head?) = some x ∧ _
    rw [if_pos rfl]
    cases hh : (List.insertionSort LatestLe (catalog.filter (fun r => r.name == name))).head? with
    | none =>
      exfalso
      have : r0 ∈ List.insertionSort LatestLe (catalog.filter (fun r => r.name == name)) :=
        (List.perm_insertionSort LatestLe _).mem_iff.2 hr0f
      cases hs : List.insertionSort LatestLe (catalog.filter (fun r => r.name == name)) with
      | nil => rw [hs] at this; cases this
      | cons a as => rw [hs] at hh; cases hh
    | some x =>
      obtain ⟨hxmem, hxmin⟩ := head_insertionSort_min _ x hh
      obtain ⟨hxc, hxname⟩ := hmem.1 hxmem
      exact ⟨x, rfl, hxc, hxname, fun y hy hyn => hxmin y (hmem.2 ⟨hy, hyn⟩)⟩
  · intro v hv
    constructor
    · intro x hx
      have hx' : ((catalog.filter (fun r => r.name == name)).filter
          (fun r => r.version == v)).head? = some x := by
        simp only [openSelect] at hx
        rw [if_neg hv] at hx
        exact hx
      have hxm := head?_mem hx'
      rw [List.mem_filter, beq_iff_eq] at hxm
      obtain ⟨hxm1, hxver⟩ := hxm
      obtain ⟨hxc, hxname⟩ := hmem.1 hxm1
      exact ⟨hxc, hxname, hxver⟩
    · intro hnone
      unfold openDataset
      rw [hnone]
      rfl

/-- Claim C3 witness: on a concrete catalog the default row wins the
version-less lookup, and a literal lookup with no match under
`mustExist` raises the not-found error. -/
theorem c3_witness :
    openSelect c3Catalog "test" none = some ⟨"test", "v2", true, 2, none⟩ ∧
    openDataset c3Catalog "test" (some "nope") true = .error "DDF_DATASET_NOT_FOUND" :=
  ⟨(c3_open_resolution c3Catalog "test").1 ⟨"test", "v2", true, 2, none⟩
      (by decide) rfl rfl (by decide),
   ((c3_open_resolution c3Catalog "test").2.2.2 "nope" (by decide)).2 rfl⟩

/-! ### Claim C4 -/

/-- Claim C4 (confirmed): a completed `makeDefaultVersion` leaves at
most one default row for the dataset name: the existing default is
cleared, a literal (existing) version ends as the unique default, and
`latest` leaves no default at all. -/
theorem c4_default_uniqueness (catalog : List DsRow) (name version : String)
    (st' : List DsRow) (h : makeDefaultVersion catalog name version = .ok st') :
    (st'.filter (fun r => r.name == name && r.isDefault)).length ≤ 1 ∧
    (version = "latest" →
      (st'.filter (fun r => r.name == name && r.isDefault)).length = 0) ∧
    (version ≠ "latest" →
      (st'.filter (fun r => r.name == name && r.isDefault)).length = 1 ∧
      ∀ r ∈ st', r.name = name → r.isDefault = true → r.version = version) := by
  unfold makeDefaultVersion at h
  by_cases hempty : (catalog.filter (fun r => r.name == name)).isEmpty = true
  · rw [if_pos hempty] at h
    cases h
  · rw [if_neg hempty] at h
    by_cases hlat : version = "latest"
    · subst hlat
      rw [if_neg (by simp)] at h
      rw [if_pos rfl] at h
      injection h with h
      subst h
      have hzero : (List.filter (fun r => r.name == name && r.isDefault)
          (catalog.map (fun r =>
            if r.name == name && r.isDefault then { r with isDefault := false } else r))) = [] := by
        rw [List.filter_eq_nil_iff]
        intro a ha
        rw [List.mem_map] at ha
        obtain ⟨b, _, hb⟩ := ha
        by_cases hcond : (b.name == name && b.isDefault) = true
        · rw [if_pos hcond] at hb
          subst hb
          simp
        · rw [if_neg hcond] at hb
          subst hb
          simp only [Bool.and_eq_true] at hcond ⊢
          intro hc
          exact hcond hc
      rw [hzero]
      exact ⟨by simp, fun _ => rfl, fun hne => absurd rfl hne⟩
    · by_cases hver : ((catalog.filter (fun r => r.name == name)).filter
          (fun r => r.version == version)).isEmpty = true
      · rw [if_pos (by exact ⟨hlat, hver⟩)] at h
        cases h
      · rw [if_neg (by intro ⟨_, hc⟩; exact hver hc)] at h
        rw [if_neg hlat] at h
        by_cases hcheck : ((((catalog.map (fun r =>
            if r.name == name && r.isDefault then { r with isDefault := false } else r)).map
              (fun r => if r.name == name && r.version == version
                then { r with isDefault := true } else r)).filter
            (fun r => r.name == name && r.isDefault)).length ≠ 1 ∨
          ((((catalog.map (fun r =>
            if r.name == name && r.isDefault then { r with isDefault := false } else r)).map
              (fun r => if r.name == name && r.version == version
                then { r with isDefault := true } else r)).filter
            (fun r => r.name == name && r.isDefault)).head?.map
              (fun r => r.version)) ≠ some version)
        · rw [if_pos hcheck] at h
          cases h
        · rw [if_neg hcheck] at h
          injection h with h
          subst h
          push_neg at hcheck
          obtain ⟨hlen, hhead⟩ := hcheck
          refine ⟨by rw [hlen], fun hc => absurd hc hlat, fun _ => ⟨hlen, ?_⟩⟩
          intro r hr hrname hrdef
          obtain ⟨x, hx⟩ := List.length_eq_one.1 hlen
          have hrf : r ∈ (List.map (fun r =>
              if r.name == name && r.version == version then { r with isDefault := true } else r)
              (List.map (fun r =>
                if r.name == name && r.isDefault then { r with isDefault := false } else r)
                catalog)).filter (fun r => r.name == name && r.isDefault) := by
            rw [List.mem_filter]
            exact ⟨hr, by rw [Bool.and_eq_true, beq_iff_eq]; exact ⟨hrname, hrdef⟩⟩
          rw [hx] at hrf hhead
          have : r = x := by
            rcases List.mem_singleton.1 hrf with h
            exact h
          subst this
          simp only [List.head?, Option.map_some] at hhead
          injection hhead

/-- Claim C4 witness: setting `v2` as default on a catalog where `v1`
was the default yields exactly one default for the name, and
`make-default latest` clears every default for the name. -/
theorem c4_witness :
    (c4After.filter (fun r => r.name == "t" && r.isDefault)).length = 1 ∧
    (c4AfterLatest.filter (fun r => r.name == "t" && r.isDefault)).length = 0 :=
  ⟨((c4_default_uniqueness c4Catalog "t" "v2" c4After rfl).2.2 (by decide)).1,
   (c4_default_uniqueness c4Catalog "t" "latest" c4AfterLatest rfl).2.1 rfl⟩

/-! ### Claim C6 -/

/-- Claim C6 counterexample: splitting `c6Base` yields shard `dps_A`
holding `v1` and `v2` and shard `dps_B` holding `v3`; the projection
`[geo, time, v1, v2]` touches only shard `dps_A`, yet the emitted SQL
joins `dps_B` — the single-table branch is taken only when the
projection has exactly one value column. -/
theorem c6_counterexample :
    c6Wide.tables.map (fun t => (t.name, t.values)) =
      [("dps_A", ["v1", "v2"]), ("dps_B", ["v3"])] ∧
    c6Wide.sqlFor { projection := ["geo", "time", "v1", "v2"] } = .ok c6JoinSql ∧
    strHas "JOIN `dps_B`" c6JoinSql = true :=
  ⟨rfl, rfl, rfl⟩

/-- Claim C6 (corrected): the wide-table compiler reads from a single
shard exactly when the projection holds exactly one non-key (value)
column — delegation goes to the shard holding that column; in every
other case (zero or several value columns, even all in one shard) the
emitted SQL joins all shards against the first with equality
conditions on every key column. -/
theorem c6_wide_table_sql (w : WTable) (q : SqlQuery) :
    (∀ v t, q.projection.filter (fun c => !(w.keys.contains c)) = [v] →
      w.tables.find? (fun tb => tb.values.contains v) = some t →
      w.sqlFor q = t.sqlFor q) ∧
    (∀ cols ij wp op t0 rest,
      (q.projection.filter (fun c => !(w.keys.contains c))).length ≠ 1 →
      q.projection.mapM (fun c => w.qualifiedCol c q.language) = .ok cols →
      innerJoinSQL (fun n lang => w.qualifiedCol n lang) q.joins = .ok ij →
      whereSQL (fun n lang => w.qualifiedCol n lang) (foreignTablesOf q.joins)
        q.language q.filters = .ok wp →
      orderSQL (fun n lang => w.qualifiedCol n lang) q.language q.sort = .ok op →
      w.tables = t0 :: rest →
      ∀ t ∈ rest, ∀ sql, w.sqlFor q = .ok sql →
        strHas ("\n  JOIN `" ++ t.tableName ++ "` ON " ++
          String.intercalate " AND " (w.keys.map (fun k =>
            t0.qualifiedCol k ++ "=" ++ t.qualifiedCol k))) sql = true) := by
  constructor
  · intro v t hval hfind
    simp only [WTable.sqlFor, hval, hfind]
  · intro cols ij wp op t0 rest hlen hcols hij hwp hop htab t ht sql hsql
    have hrun : w.sqlFor q =
        .ok ("SELECT " ++ String.intercalate ", " cols ++ " FROM " ++
          (rest.foldl (fun jSQL tb =>
            jSQL ++ "\n  JOIN `" ++ tb.tableName ++ "` ON " ++
              String.intercalate " AND " (w.keys.map (fun k =>
                t0.qualifiedCol k ++ "=" ++ tb.qualifiedCol k)))
            ("`" ++ t0.tableName ++ "`")) ++ ij ++ wp ++ op ++ ";") := by
      simp only [WTable.sqlFor]
      rcases hval : q.projection.filter (fun c => !(w.keys.contains c)) with _ | ⟨v, vs⟩
      · rw [hcols, hij, hwp, hop, htab]
        rfl
      · cases vs with
        | nil => exact absurd (by rw [hval]; rfl) hlen
        | cons v2 vs2 =>
          rw [hcols, hij, hwp, hop, htab]
          rfl
    rw [hrun] at hsql
    injection hsql with hsql
    subst hsql
    have hfun : (fun (jSQL : String) (tb : STable) =>
        jSQL ++ "\n  JOIN `" ++ tb.tableName ++ "` ON " ++
          String.intercalate " AND " (w.keys.map (fun k =>
            t0.qualifiedCol k ++ "=" ++ tb.qualifiedCol k))) =
        (fun (jSQL : String) (tb : STable) => jSQL ++
          ("\n  JOIN `" ++ tb.tableName ++ "` ON " ++
            String.intercalate " AND " (w.keys.map (fun k =>
              t0.qualifiedCol k ++ "=" ++ tb.qualifiedCol k)))) := by
      funext jSQL tb
      simp only [strApp_assoc]
    have hjoint := strHas_foldl_mem (fun tb : STable =>
        "\n  JOIN `" ++ tb.tableName ++ "` ON " ++
          String.intercalate " AND " (w.keys.map (fun k =>
            t0.qualifiedCol k ++ "=" ++ tb.qualifiedCol k)))
      rest ("`" ++ t0.tableName ++ "`") ht
    rw [← hfun] at hjoint
    exact strHas_append_left ";" (strHas_append_left op (strHas_append_left wp
      (strHas_append_left ij (strHas_append_right
        ("SELECT " ++ String.intercalate ", " cols ++ " FROM ") hjoint))))

/-- Claim C6 witness: the projection `[geo, time, v3]` holds the single
value column `v3`, so compilation is delegated to shard `dps_B`; the
projection `[geo, time, v1, v2]` holds two value columns, so the
emitted SQL joins `dps_B` against `dps_A` with equality on both key
columns. -/
theorem c6_witness :
    c6Wide.sqlFor { projection := ["geo", "time", "v3"] } =
      c6ShardB.sqlFor { projection := ["geo", "time", "v3"] } ∧
    strHas ("\n  JOIN `" ++ c6ShardB.tableName ++ "` ON " ++
      String.intercalate " AND " (c6Wide.keys.map (fun k =>
        c6ShardA.qualifiedCol k ++ "=" ++ c6ShardB.qualifiedCol k))) c6JoinSql = true :=
  ⟨(c6_wide_table_sql c6Wide { projection := ["geo", "time", "v3"] }).1 "v3" c6ShardB rfl rfl,
   (c6_wide_table_sql c6Wide { projection := ["geo", "time", "v1", "v2"] }).2
     ["`dps_A`.`geo`", "`dps_A`.`time`", "`dps_A`.`v1`", "`dps_A`.`v2`"] "" "" ""
     c6ShardA [c6ShardB] (by decide) rfl rfl rfl rfl rfl
     c6ShardB (List.mem_singleton.mpr rfl) c6JoinSql rfl⟩

/-! ### Claim C7 -/

/-- Claim C7 counterexample: a zero-row `concepts` query is framed
with the `ArrayStream([ [] ])` placeholder; since null-row filtering
applies only to datapoints, the placeholder survives, so the
structured rows are `[[]]` — one empty row, not the empty array — and
the body renders the placeholder inside the rows array. -/
theorem c7_counterexample :
    serviceRows c7Query [] = [[]] ∧
    ([[]] : List (List JSValue)) ≠ [] ∧
    strHas "\"rows\": [\n[]\n]" (serviceResponseBody c7Query "v1" [] []) = true :=
  ⟨rfl, List.cons_ne_nil _ _, rfl⟩

/-- Claim C7 (corrected): on a zero-row database result the service
still emits the full preamble — the version line followed by the
header member — and the body carries an `info` entry noting that zero
records were found; the rows of the response are the empty array for a
datapoints query (the placeholder is filtered out), but hold one empty
placeholder row for every other `from` clause. -/
theorem c7_empty_result (q : NormQuery) (version : String) (warns : List String) :
    strHas ("\"version\":\"" ++ version ++ "\",\n" ++
        ("\"header\":" ++ jsonOfStrings q.header))
      (serviceResponseBody q version warns []) = true ∧
    strHas "\"info\":[\"DB found 0 records\"]"
      (serviceResponseBody q version warns []) = true ∧
    (q.isForData = true → serviceRows q [] = []) ∧
    (q.isForData = false → serviceRows q [] = [[]]) := by
  have hbody : serviceResponseBody q version warns [] =
      printerPreamble (some version) q.header ++
      rowsText q.isForData q.key.length [[]] 0 ++
      printerTrailer (QueryLog.entries
        { info := ["DB found 0 records"], warn := warns }) := rfl
  have hent : QueryLog.entries { info := ["DB found 0 records"], warn := warns } =
      ("info", ["DB found 0 records"]) ::
        (if warns.isEmpty then [] else [("warn", warns)]) := rfl
  have h1 : printerPreamble (some version) q.header =
      "\x7b\n" ++
        ("\"version\":\"" ++ version ++ "\",\n" ++
          ("\"header\":" ++ jsonOfStrings q.header)) ++
        (",\n" ++ "\"rows\": [\n") := by
    simp only [printerPreamble, strApp_assoc]
  have hfun : (fun (acc : String) (e : String × List String) =>
      acc ++ ",\"" ++ e.1 ++ "\":" ++ jsonOfStrings e.2) =
      (fun (acc : String) (e : String × List String) =>
        acc ++ (",\"" ++ (e.1 ++ ("\":" ++ jsonOfStrings e.2)))) := by
    funext acc e
    simp only [strApp_assoc]
  have htr : strHas "\"info\":[\"DB found 0 records\"]"
      (printerTrailer (QueryLog.entries
        { info := ["DB found 0 records"], warn := warns })) = true := by
    rw [hent]
    unfold printerTrailer
    rw [hfun]
    exact strHas_append_left "\x7d" (strHas_append_right "\n]"
      (strHas_trans (by rfl)
        (strHas_foldl_mem
          (fun e : String × List String => ",\"" ++ (e.1 ++ ("\":" ++ jsonOfStrings e.2)))
          _ "" (List.mem_cons_self _ _))))
  refine ⟨?_, ?_, ?_, ?_⟩
  · rw [hbody]
    exact strHas_append_left _ (strHas_append_left _ (by
      rw [h1]
      exact strHas_middle "\x7b\n" _ (",\n" ++ "\"rows\": [\n")))
  · rw [hbody]
    exact strHas_append_right _ htr
  · intro hd
    simp [serviceRows, framedRecords, keptRecords, keepRecord, hd]
  · intro hd
    simp [serviceRows, framedRecords, keptRecords, hd]

/-- Claim C7 witness: for the concrete `concepts` query the preamble
fragments and the zero-records info entry occur in the body, and the
placeholder row survives. -/
theorem c7_witness :
    strHas ("\"version\":\"" ++ "v1" ++ "\",\n" ++
        ("\"header\":" ++ jsonOfStrings c7Query.header))
      (serviceResponseBody c7Query "v1" [] []) = true ∧
    strHas "\"info\":[\"DB found 0 records\"]"
      (serviceResponseBody c7Query "v1" [] []) = true ∧
    serviceRows c7Query [] = [[]] :=
  ⟨(c7_empty_result c7Query "v1" []).1,
   (c7_empty_result c7Query "v1" []).2.1,
   (c7_empty_result c7Query "v1" []).2.2.2 rfl⟩

end BW
